import Mathlib

/-!
Verification of the rustfem geometry kernel specification.

This file shallowly embeds the geometry crate of the repository
(crates/geometry: vector.rs, precision.rs, line.rs, arc.rs, polygon.rs,
shape.rs, together with crates/utils/precision.rs) into Lean.  Machine
floating-point numbers are modelled as real numbers; every numeric
definition is transcribed from the Rust source, statement by statement.

The global settable tolerance of crates/geometry/src/precision.rs is
modelled by passing the current epsilon value explicitly to every
function that reads it via crate::epsilon(); a call after set_epsilon(e)
corresponds to passing e.  The constant tolerance of
crates/utils/src/precision.rs (which never changes) is the constant
utilsEpsilon below.
-/

noncomputable section

open Classical
open scoped Real

/-- Constant DEFAULT_EPSILON from crates/utils/src/precision.rs; the function
utils::epsilon() always returns this constant (the utils crate has no setter). -/
def utilsEpsilon : ℝ := 1e-12

/-- Constant DEFAULT_EPSILON from crates/geometry/src/precision.rs, the initial
value of the settable global epsilon. -/
def DEFAULT_EPSILON : ℝ := 1e-12

/-- Two-dimensional vector (crates/geometry/src/vector.rs, Vector2d). -/
structure Vector2d where
  x : ℝ
  y : ℝ

/-- Three-dimensional vector (crates/geometry/src/vector.rs, Vector3d). -/
structure Vector3d where
  x : ℝ
  y : ℝ
  z : ℝ

instance : Inhabited Vector3d := ⟨⟨0, 0, 0⟩⟩

namespace Vector2d

/-- Vector difference (nalgebra componentwise subtraction). -/
def sub (u v : Vector2d) : Vector2d := ⟨u.x - v.x, u.y - v.y⟩

/-- Dot product. -/
def dot (u v : Vector2d) : ℝ := u.x * v.x + u.y * v.y

/-- Euclidean norm. -/
def norm (v : Vector2d) : ℝ := Real.sqrt (v.dot v)

/-- Vector2d::is_approx: the tolerance is the override if given, otherwise
utils::epsilon() — the CONSTANT from the utils crate (vector.rs line 3 does
`use utils::epsilon`), not the settable epsilon of the geometry crate. -/
def is_approx (u v : Vector2d) (precision : Option ℝ) : Prop :=
  (u.sub v).norm ≤ precision.getD utilsEpsilon

end Vector2d

namespace Vector3d

/-- Componentwise sum. -/
def add (u v : Vector3d) : Vector3d := ⟨u.x + v.x, u.y + v.y, u.z + v.z⟩

/-- Componentwise difference. -/
def sub (u v : Vector3d) : Vector3d := ⟨u.x - v.x, u.y - v.y, u.z - v.z⟩

/-- Scalar multiple (nalgebra vector-times-scalar). -/
def smul (v : Vector3d) (a : ℝ) : Vector3d := ⟨v.x * a, v.y * a, v.z * a⟩

/-- Negation. -/
def neg (v : Vector3d) : Vector3d := ⟨-v.x, -v.y, -v.z⟩

/-- Dot product. -/
def dot (u v : Vector3d) : ℝ := u.x * v.x + u.y * v.y + u.z * v.z

/-- Euclidean norm. -/
def norm (v : Vector3d) : ℝ := Real.sqrt (v.dot v)

/-- Cross product. -/
def cross (u v : Vector3d) : Vector3d :=
  ⟨u.y * v.z - u.z * v.y, u.z * v.x - u.x * v.z, u.x * v.y - u.y * v.x⟩

/-- nalgebra normalize: division of the vector by its norm. -/
def normalize (v : Vector3d) : Vector3d := v.smul (v.norm)⁻¹

/-- Vector3d::is_approx: override if given, else the CONSTANT utils::epsilon(). -/
def is_approx (u v : Vector3d) (precision : Option ℝ) : Prop :=
  (u.sub v).norm ≤ precision.getD utilsEpsilon

end Vector3d

/-- The dot square of a 3D vector is nonnegative. -/
lemma Vector3d.dot_self_nonneg (v : Vector3d) : 0 ≤ v.dot v := by
  simp only [Vector3d.dot]
  nlinarith [sq_nonneg v.x, sq_nonneg v.y, sq_nonneg v.z]

/-- The dot square of a 2D vector is nonnegative. -/
lemma Vector2d.dot_self_nonneg2 (v : Vector2d) : 0 ≤ v.dot v := by
  simp only [Vector2d.dot]
  nlinarith [sq_nonneg v.x, sq_nonneg v.y]

/-- Norm evaluation helper: if the dot square is the square of a nonnegative
number, the norm is that number. -/
lemma Vector3d.norm_eval {v : Vector3d} {r : ℝ} (hr : 0 ≤ r) (h : v.dot v = r * r) :
    v.norm = r := by
  rw [Vector3d.norm, h, Real.sqrt_mul_self hr]

/-- Norm evaluation helper for 2D vectors. -/
lemma Vector2d.norm_eval2 {v : Vector2d} {r : ℝ} (hr : 0 ≤ r) (h : v.dot v = r * r) :
    v.norm = r := by
  rw [Vector2d.norm, h, Real.sqrt_mul_self hr]

/-- The norm exceeds a nonnegative bound as soon as the dot square exceeds its
square. -/
lemma Vector3d.lt_norm {v : Vector3d} {e : ℝ} (he : 0 ≤ e) (h : e * e < v.dot v) :
    e < v.norm := by
  rw [Vector3d.norm]
  have := (Real.lt_sqrt he).mpr (by nlinarith : e ^ 2 < v.dot v)
  exact this

/-- The norm is at most a nonnegative bound as soon as the dot square is at most
its square. -/
lemma Vector3d.norm_le {v : Vector3d} {e : ℝ} (he : 0 ≤ e) (h : v.dot v ≤ e * e) :
    v.norm ≤ e := by
  rw [Vector3d.norm]
  calc Real.sqrt (v.dot v) ≤ Real.sqrt (e * e) := Real.sqrt_le_sqrt h
    _ = e := Real.sqrt_mul_self he

/-- Norm of a vector is nonnegative. -/
lemma Vector3d.norm_nonneg (v : Vector3d) : 0 ≤ v.norm := Real.sqrt_nonneg _

/-- The norm squared recovers the dot square. -/
lemma Vector3d.mul_self_norm (v : Vector3d) : v.norm * v.norm = v.dot v := by
  rw [Vector3d.norm]; exact Real.mul_self_sqrt v.dot_self_nonneg

/-- A vector whose norm is strictly positive has strictly positive dot square. -/
lemma Vector3d.dot_self_pos_of_norm_pos {v : Vector3d} (h : 0 < v.norm) :
    0 < v.dot v := by
  have := v.mul_self_norm
  nlinarith

/-- Normalizing a vector of positive norm yields a unit vector (dot square one). -/
lemma Vector3d.normalize_dot_self {v : Vector3d} (h : 0 < v.norm) :
    (v.normalize).dot v.normalize = 1 := by
  have hd : 0 < v.dot v := v.dot_self_pos_of_norm_pos h
  have hn : v.norm * v.norm = v.dot v := v.mul_self_norm
  simp only [Vector3d.normalize, Vector3d.smul, Vector3d.dot] at *
  field_simp
  nlinarith

/- ------------------------------------------------------------------ -/
/- Claim C1: does Vector is_approx follow the settable global epsilon? -/
/- ------------------------------------------------------------------ -/

/-- C1 counterexample: set the global tolerance to e = 1 (a legal value, e ≥ 0).
For u = (0,0) and v = (1/2,0) the norm of u - v is 1/2 ≤ e, yet
u.is_approx(v, None) is false, because Vector2d::is_approx reads the constant
utils::epsilon() = 1e-12 instead of the settable geometry epsilon.  The claimed
equivalence fails at this input. -/
theorem C1_counterexample :
    0 ≤ (1 : ℝ) ∧
      ¬ (Vector2d.is_approx ⟨0, 0⟩ ⟨1/2, 0⟩ none ↔
          (Vector2d.sub ⟨0, 0⟩ ⟨1/2, 0⟩).norm ≤ (1 : ℝ)) := by
  have hnorm : (Vector2d.sub ⟨0, 0⟩ ⟨1/2, 0⟩).norm = 1/2 := by
    apply Vector2d.norm_eval2 (by norm_num)
    norm_num [Vector2d.sub, Vector2d.dot]
  refine ⟨by norm_num, ?_⟩
  intro h
  have h2 : Vector2d.is_approx ⟨0, 0⟩ ⟨1/2, 0⟩ none := by
    apply h.mpr
    rw [hnorm]; norm_num
  rw [Vector2d.is_approx, hnorm] at h2
  simp only [Option.getD] at h2
  rw [utilsEpsilon] at h2
  norm_num at h2

/-- C1 amended: Vector2d::is_approx and Vector3d::is_approx with precision None
compare against the FIXED constant utils DEFAULT_EPSILON = 1e-12, regardless of
any value passed to the geometry crate's set_epsilon; with Some e they compare
against the override e.  (Line, Arc and Polygon predicates, by contrast, take
the settable geometry epsilon — modelled as the explicit eps argument of their
definitions below.) -/
theorem C1_amended :
    (∀ u v : Vector2d, ∀ e : ℝ,
        (u.is_approx v none ↔ (u.sub v).norm ≤ utilsEpsilon) ∧
        (u.is_approx v (some e) ↔ (u.sub v).norm ≤ e)) ∧
    (∀ u v : Vector3d, ∀ e : ℝ,
        (u.is_approx v none ↔ (u.sub v).norm ≤ utilsEpsilon) ∧
        (u.is_approx v (some e) ↔ (u.sub v).norm ≤ e)) ∧
    utilsEpsilon = 1e-12 := by
  refine ⟨fun u v e => ⟨Iff.rfl, Iff.rfl⟩, fun u v e => ⟨Iff.rfl, Iff.rfl⟩, rfl⟩

/- ------------------------------------------------------------------ -/
/- Line (crates/geometry/src/line.rs)                                  -/
/- ------------------------------------------------------------------ -/

/-- A finite segment between two vectors (line.rs `Line`; the exported type is
Line3d = Line<Vector3d>).  The Rust field `end` is a Lean keyword, so it is
called `stop` here. -/
structure Line3d where
  start : Vector3d
  stop : Vector3d

namespace Line3d

/-- Line::point_at. -/
def point_at (L : Line3d) (t : ℝ) : Vector3d :=
  L.start.add ((L.stop.sub L.start).smul t)

/-- Line::closest_point: orthogonal projection with the parameter clamped to
[0,1]; a degenerate line (dir.dot(dir) <= eps) returns start.  eps is the
settable geometry epsilon. -/
def closest_point (eps : ℝ) (L : Line3d) (p : Vector3d) : Vector3d :=
  let dir := L.stop.sub L.start
  let lenSq := dir.dot dir
  if lenSq ≤ eps then L.start
  else L.point_at (min 1 (max 0 (dir.dot (p.sub L.start) / lenSq)))

/-- Line::contains: the closest point must be within eps of p and the unclamped
parameter must lie in [-eps, 1+eps]; a degenerate line contains only points
within eps of start. -/
def contains (eps : ℝ) (L : Line3d) (p : Vector3d) : Prop :=
  if ¬ Vector3d.is_approx (L.closest_point eps p) p (some eps) then False
  else
    let dir := L.stop.sub L.start
    let lenSq := dir.dot dir
    if lenSq ≤ eps then Vector3d.is_approx p L.start (some eps)
    else
      let t := dir.dot (p.sub L.start) / lenSq ;
      -eps ≤ t ∧ t ≤ 1 + eps

/-- Denominator of the 2x2 system solved by Line::intersection
(a*e - b*b from the two direction vectors). -/
def denom (L1 L2 : Line3d) : ℝ :=
  let d1 := L1.stop.sub L1.start
  let d2 := L2.stop.sub L2.start
  (d1.dot d1) * (d2.dot d2) - (d1.dot d2) * (d1.dot d2)

/-- The parameter s on self computed by Line::intersection,
s = (b*f - c*e) / denom. -/
def interS (L1 L2 : Line3d) : ℝ :=
  let d1 := L1.stop.sub L1.start
  let d2 := L2.stop.sub L2.start
  let b := d1.dot d2
  let e := d2.dot d2
  let r := L1.start.sub L2.start
  let c := d1.dot r
  let f := d2.dot r
  (b * f - c * e) / Line3d.denom L1 L2

/-- The parameter t on other computed by Line::intersection,
t = (a*f - b*c) / denom. -/
def interT (L1 L2 : Line3d) : ℝ :=
  let d1 := L1.stop.sub L1.start
  let d2 := L2.stop.sub L2.start
  let a := d1.dot d1
  let b := d1.dot d2
  let r := L1.start.sub L2.start
  let c := d1.dot r
  let f := d2.dot r
  (a * f - b * c) / Line3d.denom L1 L2

/-- Line::intersection (line.rs lines 246-288).  In the singular branch
(|denom| <= eps) returns other.start iff self contains it.  Otherwise the two
parameters s and t are computed in closed form; in segment mode both must lie
in [-eps, 1+eps]; in ray mode only s >= -1e-9 is required (an absolute
tolerance) and s is clamped up to 0; finally the two parametric points must
agree within eps. -/
def intersection (eps : ℝ) (L1 L2 : Line3d) (treatAsRay : Bool) : Option Vector3d :=
  if |Line3d.denom L1 L2| ≤ eps then
    if Line3d.contains eps L1 L2.start then some L2.start else none
  else
    let s0 := Line3d.interS L1 L2
    let t := Line3d.interT L1 L2
    if treatAsRay = false ∧ (s0 < -eps ∨ 1 + eps < s0 ∨ t < -eps ∨ 1 + eps < t) then none
    else if treatAsRay = true ∧ s0 < -(1e-9) then none
    else
      let s := if treatAsRay = true ∧ s0 < 0 then 0 else s0
      let p1 := L1.start.add ((L1.stop.sub L1.start).smul s)
      let p2 := L2.start.add ((L2.stop.sub L2.start).smul t)
      if Vector3d.is_approx p1 p2 (some eps) then some p1 else none

end Line3d

/-- Comparison of a norm against a nonnegative bound reduces to comparing the
dot square against the squared bound. -/
lemma Vector3d.norm_le_iff {v : Vector3d} {e : ℝ} (he : 0 ≤ e) :
    v.norm ≤ e ↔ v.dot v ≤ e * e := by
  constructor
  · intro h
    have h1 := v.mul_self_norm
    have h2 := v.norm_nonneg
    nlinarith
  · intro h
    exact v.norm_le he h

/-- Strict comparison of a nonnegative bound against a norm reduces to the dot
square. -/
lemma Vector3d.lt_norm_iff {v : Vector3d} {e : ℝ} (he : 0 ≤ e) :
    e < v.norm ↔ e * e < v.dot v := by
  rw [← not_le, ← not_le, Vector3d.norm_le_iff he]

/-- Comparison of a 2D norm against a nonnegative bound reduces to the dot
square. -/
lemma Vector2d.norm_le_iff2 {v : Vector2d} {e : ℝ} (he : 0 ≤ e) :
    v.norm ≤ e ↔ v.dot v ≤ e * e := by
  constructor
  · intro h
    have h1 : v.norm * v.norm = v.dot v := by
      rw [Vector2d.norm]; exact Real.mul_self_sqrt v.dot_self_nonneg2
    have h2 : 0 ≤ v.norm := Real.sqrt_nonneg _
    nlinarith
  · intro h
    rw [Vector2d.norm]
    calc Real.sqrt (v.dot v) ≤ Real.sqrt (e * e) := Real.sqrt_le_sqrt h
      _ = e := Real.sqrt_mul_self he

/-- Swapping the arguments of sub flips the sign inside the norm, so the norm
is unchanged. -/
lemma Vector3d.norm_sub_comm (u v : Vector3d) : (u.sub v).norm = (v.sub u).norm := by
  simp only [Vector3d.norm, Vector3d.sub, Vector3d.dot]
  ring_nf

/-- Dot product is commutative. -/
lemma Vector3d.dot_comm (u v : Vector3d) : u.dot v = v.dot u := by
  simp only [Vector3d.dot]; ring

/-- Dot product with a negated vector. -/
lemma Vector3d.dot_neg (u v : Vector3d) : u.dot v.neg = -(u.dot v) := by
  simp only [Vector3d.dot, Vector3d.neg]; ring

/-- Reversed subtraction is the negation. -/
lemma Vector3d.sub_rev (u v : Vector3d) : u.sub v = (v.sub u).neg := by
  simp only [Vector3d.sub, Vector3d.neg, Vector3d.mk.injEq]
  refine ⟨by ring, by ring, by ring⟩

/- ------------------------------------------------------------------ -/
/- Claim C3: symmetry of Line::intersection in non-ray mode            -/
/- ------------------------------------------------------------------ -/

/-- C3 counterexample: the collinear segments A = (0,0,0)-(10,0,0) and
B = (5,0,0)-(6,0,0) take the singular branch (denominator 0).  A.intersection(B)
returns B.start = (5,0,0) because A contains it, but B.intersection(A) returns
none because B does not contain A.start = (0,0,0).  The claimed symmetry fails. -/
theorem C3_counterexample :
    Line3d.intersection DEFAULT_EPSILON ⟨⟨0,0,0⟩, ⟨10,0,0⟩⟩ ⟨⟨5,0,0⟩, ⟨6,0,0⟩⟩ false
      = some ⟨5,0,0⟩ ∧
    Line3d.intersection DEFAULT_EPSILON ⟨⟨5,0,0⟩, ⟨6,0,0⟩⟩ ⟨⟨0,0,0⟩, ⟨10,0,0⟩⟩ false
      = none := by
  constructor
  · norm_num [Line3d.intersection, Line3d.denom, Line3d.contains, Line3d.closest_point,
      Line3d.point_at, Vector3d.is_approx, Option.getD, Vector3d.sub, Vector3d.dot,
      Vector3d.add, Vector3d.smul, DEFAULT_EPSILON, Vector3d.norm_le_iff, min_def, max_def]
  · norm_num [Line3d.intersection, Line3d.denom, Line3d.contains, Line3d.closest_point,
      Line3d.point_at, Vector3d.is_approx, Option.getD, Vector3d.sub, Vector3d.dot,
      Vector3d.add, Vector3d.smul, DEFAULT_EPSILON, Vector3d.norm_le_iff, min_def, max_def]

/-- C3 amended: Line::intersection in non-ray mode is symmetric whenever the
2x2 system is non-singular, i.e. whenever |denom| > eps.  If A.intersection(B,
false) returns p then B.intersection(A, false) returns a point q within eps of
p (the two parametric points, whose agreement the code itself checks).  In the
singular (parallel/collinear) branch the fallback is asymmetric, as the
counterexample shows. -/
theorem C3_amended (eps : ℝ) (A B : Line3d) (p : Vector3d)
    (heps : 0 ≤ eps) (hd : eps < |Line3d.denom A B|)
    (h : Line3d.intersection eps A B false = some p) :
    ∃ q, Line3d.intersection eps B A false = some q ∧ (p.sub q).norm ≤ eps := by
  have hABne : ¬ |Line3d.denom A B| ≤ eps := not_le.mpr hd
  have hcomm : Line3d.denom B A = Line3d.denom A B := by
    simp only [Line3d.denom]
    rw [Vector3d.dot_comm (B.stop.sub B.start) (A.stop.sub A.start)]
    ring
  have hBAne : ¬ |Line3d.denom B A| ≤ eps := by rw [hcomm]; exact hABne
  have hs : Line3d.interS B A = Line3d.interT A B := by
    simp only [Line3d.interS, Line3d.interT]
    rw [hcomm]
    congr 1
    simp only [Vector3d.sub_rev B.start A.start, Vector3d.dot_neg,
      Vector3d.dot_comm (B.stop.sub B.start) (A.stop.sub A.start)]
    ring
  have ht : Line3d.interT B A = Line3d.interS A B := by
    simp only [Line3d.interS, Line3d.interT]
    rw [hcomm]
    congr 1
    simp only [Vector3d.sub_rev B.start A.start, Vector3d.dot_neg,
      Vector3d.dot_comm (B.stop.sub B.start) (A.stop.sub A.start)]
    ring
  rw [Line3d.intersection, if_neg hABne] at h
  simp only [Bool.false_eq_true, false_and, if_neg, ite_false, eq_self_iff_true, true_and,
    if_false] at h
  by_cases hR : Line3d.interS A B < -eps ∨ 1 + eps < Line3d.interS A B ∨
      Line3d.interT A B < -eps ∨ 1 + eps < Line3d.interT A B
  · rw [if_pos hR] at h
    cases h
  · rw [if_neg hR] at h
    by_cases hP : Vector3d.is_approx
        (A.start.add ((A.stop.sub A.start).smul (Line3d.interS A B)))
        (B.start.add ((B.stop.sub B.start).smul (Line3d.interT A B))) (some eps)
    · rw [if_pos hP] at h
      have hp : p = A.start.add ((A.stop.sub A.start).smul (Line3d.interS A B)) :=
        (Option.some.inj h).symm
      push_neg at hR
      refine ⟨B.start.add ((B.stop.sub B.start).smul (Line3d.interT A B)), ?_, ?_⟩
      · rw [Line3d.intersection, if_neg hBAne]
        simp only [Bool.false_eq_true, false_and, eq_self_iff_true, true_and, if_false,
          ite_false]
        rw [hs, ht]
        rw [if_neg (by push_neg; exact ⟨hR.2.2.1, hR.2.2.2, hR.1, hR.2.1⟩)]
        rw [if_pos]
        rw [Vector3d.is_approx] at hP ⊢
        simp only [Option.getD] at hP ⊢
        rw [Vector3d.norm_sub_comm]
        exact hP
      · rw [hp]
        rw [Vector3d.is_approx] at hP
        simp only [Option.getD] at hP
        exact hP
    · rw [if_neg hP] at h
      cases h

/-- C3 witness: the segments A = (0,0,0)-(1,0,0) and B = (1/2,-1,0)-(1/2,1,0)
cross at (1/2,0,0) with denominator 4 > eps; both assumptions of the amended
theorem hold concretely and the conclusion follows by applying it. -/
theorem C3_witness :
    0 ≤ DEFAULT_EPSILON ∧
    DEFAULT_EPSILON < |Line3d.denom ⟨⟨0,0,0⟩, ⟨1,0,0⟩⟩ ⟨⟨1/2,-1,0⟩, ⟨1/2,1,0⟩⟩| ∧
    Line3d.intersection DEFAULT_EPSILON ⟨⟨0,0,0⟩, ⟨1,0,0⟩⟩ ⟨⟨1/2,-1,0⟩, ⟨1/2,1,0⟩⟩ false
      = some ⟨1/2,0,0⟩ ∧
    ∃ q, Line3d.intersection DEFAULT_EPSILON ⟨⟨1/2,-1,0⟩, ⟨1/2,1,0⟩⟩ ⟨⟨0,0,0⟩, ⟨1,0,0⟩⟩ false
        = some q ∧ ((⟨1/2,0,0⟩ : Vector3d).sub q).norm ≤ DEFAULT_EPSILON := by
  have h1 : 0 ≤ DEFAULT_EPSILON := by norm_num [DEFAULT_EPSILON]
  have h2 : DEFAULT_EPSILON <
      |Line3d.denom ⟨⟨0,0,0⟩, ⟨1,0,0⟩⟩ ⟨⟨1/2,-1,0⟩, ⟨1/2,1,0⟩⟩| := by
    norm_num [Line3d.denom, Vector3d.dot, Vector3d.sub, DEFAULT_EPSILON]
  have h3 : Line3d.intersection DEFAULT_EPSILON ⟨⟨0,0,0⟩, ⟨1,0,0⟩⟩
      ⟨⟨1/2,-1,0⟩, ⟨1/2,1,0⟩⟩ false = some ⟨1/2,0,0⟩ := by
    norm_num [Line3d.intersection, Line3d.denom, Line3d.interS, Line3d.interT,
      Line3d.contains, Line3d.closest_point, Line3d.point_at, Vector3d.is_approx,
      Option.getD, Vector3d.sub, Vector3d.dot, Vector3d.add, Vector3d.smul,
      DEFAULT_EPSILON, Vector3d.norm_le_iff, min_def, max_def]
  exact ⟨h1, h2, h3, C3_amended DEFAULT_EPSILON _ _ _ h1 h2 h3⟩

/- ------------------------------------------------------------------ -/
/- Arc (crates/geometry/src/arc.rs)                                    -/
/- ------------------------------------------------------------------ -/

/-- Two-argument arctangent, f64::atan2(y, x), modelled as the complex argument
of x + y*i (range (-pi, pi], with atan2(0, 0) = 0, matching arg 0 = 0). -/
def atan2 (y x : ℝ) : ℝ := Complex.arg (x + y * Complex.I)

/-- atan2 of a nonnegative first argument lies in [0, pi]. -/
lemma atan2_mem {y x : ℝ} (hy : 0 ≤ y) : 0 ≤ atan2 y x ∧ atan2 y x ≤ π := by
  rw [atan2]
  refine ⟨?_, Complex.arg_le_pi _⟩
  by_cases hz : (x : ℂ) + y * Complex.I = 0
  · rw [hz, Complex.arg_zero]
  · rw [Complex.arg_nonneg_iff]
    simp [hy]

/-- atan2 inverts the unit-circle parametrisation on (-pi, pi]. -/
lemma atan2_cos_sin {t : ℝ} (h1 : -π < t) (h2 : t ≤ π) :
    atan2 (Real.sin t) (Real.cos t) = t := by
  rw [atan2, Complex.ofReal_cos, Complex.ofReal_sin]
  exact Complex.arg_cos_add_sin_mul_I ⟨h1, h2⟩

/-- Circular arc (arc.rs `Arc`): center, start, end (called stop here), unit
normal, signed sweep and radius. -/
structure Arc where
  center : Vector3d
  start : Vector3d
  stop : Vector3d
  normal : Vector3d
  sweep : ℝ
  radius : ℝ

namespace Arc

/-- First stage of the normal in Arc::new: the normalized cross product of the
two radius vectors, defaulting to -+global Z (by the clockwise flag) when the
cross product is within eps of zero. -/
def mkNormal1 (eps : ℝ) (c s e : Vector3d) (cw : Bool) : Vector3d :=
  let cross := (s.sub c).cross (e.sub c)
  if cross.norm ≤ eps then ⟨0, 0, if cw then -1 else 1⟩
  else cross.smul (cross.norm)⁻¹

/-- Second stage: flip the sign in the generic branch when clockwise. -/
def mkNormal2 (eps : ℝ) (c s e : Vector3d) (cw : Bool) : Vector3d :=
  if eps < ((s.sub c).cross (e.sub c)).norm ∧ cw = true then (mkNormal1 eps c s e cw).neg
  else mkNormal1 eps c s e cw

/-- Unit direction of the start radius vector, with fallback (1,0,0) when the
start point is within eps of the center. -/
def startDir (eps : ℝ) (c s : Vector3d) : Vector3d :=
  if (s.sub c).norm ≤ eps then ⟨1, 0, 0⟩ else (s.sub c).smul ((s.sub c).norm)⁻¹

/-- Unit direction of the end radius vector, falling back to the start
direction when the end point is within eps of the center. -/
def endDir (eps : ℝ) (c s e : Vector3d) : Vector3d :=
  if (e.sub c).norm ≤ eps then startDir eps c s else (e.sub c).smul ((e.sub c).norm)⁻¹

/-- The sweep computed by Arc::new before the near-zero replacement: the
atan2-angle between the two radius directions, sign-corrected against the
normal, then adjusted by a full turn so its sign matches the clockwise flag. -/
def rawSweep (eps : ℝ) (c s e : Vector3d) (cw : Bool) : ℝ :=
  let sd := startDir eps c s
  let ed := endDir eps c s e
  let cd := sd.cross ed
  let dotc := max (-1) (min 1 (sd.dot ed))
  let sw0 := atan2 cd.norm dotc
  let sw1 := if cd.dot (mkNormal2 eps c s e cw) < 0 then -sw0 else sw0
  if cw = true ∧ 0 < sw1 then sw1 - 2 * π
  else if cw = false ∧ sw1 < 0 then sw1 + 2 * π
  else sw1

/-- Arc::new (arc.rs lines 53-117): radius is the average of the two radii,
the normal is normalized at the end, and a sweep within eps of zero is
replaced by -pi (clockwise) or +pi (counter-clockwise). -/
def new (eps : ℝ) (c s e : Vector3d) (cw : Bool) : Arc :=
  { center := c
    start := s
    stop := e
    normal := (mkNormal2 eps c s e cw).normalize
    sweep :=
      if |rawSweep eps c s e cw| ≤ eps then (if cw then -π else π)
      else rawSweep eps c s e cw
    radius := ((s.sub c).norm + (e.sub c).norm) * 0.5 }

/-- Arc::length = radius * |sweep|. -/
def length (A : Arc) : ℝ := A.radius * |A.sweep|

end Arc

/-- Projection of the sweep field of Arc::new. -/
lemma Arc.new_sweep (eps : ℝ) (c s e : Vector3d) (cw : Bool) :
    (Arc.new eps c s e cw).sweep =
      (if |Arc.rawSweep eps c s e cw| ≤ eps then (if cw then -π else π)
       else Arc.rawSweep eps c s e cw) := rfl

/-- Projection of the radius field of Arc::new. -/
lemma Arc.new_radius (eps : ℝ) (c s e : Vector3d) (cw : Bool) :
    (Arc.new eps c s e cw).radius = ((s.sub c).norm + (e.sub c).norm) * 0.5 := rfl

/-- Projection of the normal field of Arc::new. -/
lemma Arc.new_normal (eps : ℝ) (c s e : Vector3d) (cw : Bool) :
    (Arc.new eps c s e cw).normal = (Arc.mkNormal2 eps c s e cw).normalize := rfl

/-- The pre-replacement sweep lies in (-2pi, 0] for clockwise arcs and in
[0, 2pi) for counter-clockwise arcs. -/
lemma rawSweep_range (eps : ℝ) (c s e : Vector3d) (cw : Bool) :
    (cw = true → -(2 * π) < Arc.rawSweep eps c s e cw ∧ Arc.rawSweep eps c s e cw ≤ 0) ∧
    (cw = false → 0 ≤ Arc.rawSweep eps c s e cw ∧ Arc.rawSweep eps c s e cw < 2 * π) := by
  have hpi := Real.pi_pos
  have h0 := atan2_mem (x := max (-1) (min 1
      ((Arc.startDir eps c s).dot (Arc.endDir eps c s e))))
    (Vector3d.norm_nonneg ((Arc.startDir eps c s).cross (Arc.endDir eps c s e)))
  rw [Arc.rawSweep]
  set sw0 := atan2 ((Arc.startDir eps c s).cross (Arc.endDir eps c s e)).norm
      (max (-1) (min 1 ((Arc.startDir eps c s).dot (Arc.endDir eps c s e)))) with hsw0
  set sw1 := if ((Arc.startDir eps c s).cross (Arc.endDir eps c s e)).dot
      (Arc.mkNormal2 eps c s e cw) < 0 then -sw0 else sw0 with hsw1
  have hsw1range : -π ≤ sw1 ∧ sw1 ≤ π := by
    rw [hsw1]
    rcases le_or_lt 0 (((Arc.startDir eps c s).cross (Arc.endDir eps c s e)).dot
        (Arc.mkNormal2 eps c s e cw)) with hle | hlt
    · rw [if_neg (not_lt.mpr hle)]
      constructor <;> linarith [h0.1, h0.2]
    · rw [if_pos hlt]
      constructor <;> linarith [h0.1, h0.2]
  constructor
  · intro hcw
    subst hcw
    simp only [eq_self_iff_true, true_and, Bool.true_eq_false, false_and, if_false, ite_false]
    by_cases hpos : 0 < sw1
    · rw [if_pos hpos]
      constructor <;> linarith [hsw1range.2]
    · rw [if_neg hpos]
      constructor <;> linarith [hsw1range.1, not_lt.mp hpos]
  · intro hcw
    subst hcw
    simp only [eq_self_iff_true, true_and, Bool.false_eq_true, false_and, if_false, ite_false]
    by_cases hneg : sw1 < 0
    · rw [if_pos hneg]
      constructor <;> linarith [hsw1range.1]
    · rw [if_neg hneg]
      constructor <;> linarith [hsw1range.2, not_lt.mp hneg]

/-- The stored sweep of every constructed arc is strictly negative (clockwise)
or strictly positive (counter-clockwise), and lies strictly inside (-2pi, 2pi),
provided eps >= 0. -/
lemma new_sweep_range (eps : ℝ) (c s e : Vector3d) (cw : Bool) (heps : 0 ≤ eps) :
    (cw = true → -(2 * π) < (Arc.new eps c s e cw).sweep ∧ (Arc.new eps c s e cw).sweep < 0) ∧
    (cw = false → 0 < (Arc.new eps c s e cw).sweep ∧ (Arc.new eps c s e cw).sweep < 2 * π) := by
  have hpi := Real.pi_pos
  have hr := rawSweep_range eps c s e cw
  constructor
  · intro hcw
    have hr1 := hr.1 hcw
    subst hcw
    rw [Arc.new_sweep]
    by_cases hz : |Arc.rawSweep eps c s e true| ≤ eps
    · rw [if_pos hz, show (if (true : Bool) then -π else π) = -π from rfl]
      constructor <;> linarith
    · rw [if_neg hz]
      have hlt : eps < |Arc.rawSweep eps c s e true| := not_le.mp hz
      rw [abs_of_nonpos hr1.2] at hlt
      exact ⟨hr1.1, by linarith⟩
  · intro hcw
    have hr2 := hr.2 hcw
    subst hcw
    rw [Arc.new_sweep]
    by_cases hz : |Arc.rawSweep eps c s e false| ≤ eps
    · rw [if_pos hz, show (if (false : Bool) then -π else π) = π from rfl]
      constructor <;> linarith
    · rw [if_neg hz]
      have hlt : eps < |Arc.rawSweep eps c s e false| := not_le.mp hz
      rw [abs_of_nonneg hr2.1] at hlt
      exact ⟨by linarith, hr2.2⟩

/- ------------------------------------------------------------------ -/
/- Claim C4: sign, magnitude and near-zero tie-break of Arc sweep      -/
/- ------------------------------------------------------------------ -/

/-- C4: for every arc produced by Arc::new with eps >= 0, the stored sweep is
strictly negative when clockwise and strictly positive when counter-clockwise,
its magnitude is at most 2*pi, and whenever the computed (pre-replacement)
sweep has absolute value at most eps, the stored sweep is -pi (clockwise) or
+pi (counter-clockwise). -/
theorem C4_sweep (eps : ℝ) (c s e : Vector3d) (cw : Bool) (heps : 0 ≤ eps) :
    (cw = true → (Arc.new eps c s e cw).sweep < 0) ∧
    (cw = false → 0 < (Arc.new eps c s e cw).sweep) ∧
    |(Arc.new eps c s e cw).sweep| ≤ 2 * π ∧
    (|Arc.rawSweep eps c s e cw| ≤ eps →
      (Arc.new eps c s e cw).sweep = (if cw then -π else π)) := by
  have hr := new_sweep_range eps c s e cw heps
  refine ⟨fun hcw => (hr.1 hcw).2, fun hcw => (hr.2 hcw).1, ?_, ?_⟩
  · cases cw
    · have h2 := hr.2 rfl
      rw [abs_le]; constructor <;> linarith [Real.pi_pos]
    · have h1 := hr.1 rfl
      rw [abs_le]; constructor <;> linarith [Real.pi_pos]
  · intro hz
    rw [Arc.new_sweep, if_pos hz]

/-- C4 witness: the quarter circle Arc::new((0,0,0),(1,0,0),(0,1,0),false) at
the default epsilon satisfies all conclusions of the sweep theorem. -/
theorem C4_witness :
    0 ≤ DEFAULT_EPSILON ∧
    ((false = true → (Arc.new DEFAULT_EPSILON ⟨0,0,0⟩ ⟨1,0,0⟩ ⟨0,1,0⟩ false).sweep < 0) ∧
     (false = false → 0 < (Arc.new DEFAULT_EPSILON ⟨0,0,0⟩ ⟨1,0,0⟩ ⟨0,1,0⟩ false).sweep) ∧
     |(Arc.new DEFAULT_EPSILON ⟨0,0,0⟩ ⟨1,0,0⟩ ⟨0,1,0⟩ false).sweep| ≤ 2 * π ∧
     (|Arc.rawSweep DEFAULT_EPSILON ⟨0,0,0⟩ ⟨1,0,0⟩ ⟨0,1,0⟩ false| ≤ DEFAULT_EPSILON →
       (Arc.new DEFAULT_EPSILON ⟨0,0,0⟩ ⟨1,0,0⟩ ⟨0,1,0⟩ false).sweep
         = (if false then -π else π))) := by
  have h : 0 ≤ DEFAULT_EPSILON := by norm_num [DEFAULT_EPSILON]
  exact ⟨h, C4_sweep DEFAULT_EPSILON ⟨0,0,0⟩ ⟨1,0,0⟩ ⟨0,1,0⟩ false h⟩

namespace Arc

/-- Arc::point_at_angle: rotate the start direction about the normal by the
requested angle (via the in-plane orthogonal direction) and scale by radius. -/
def point_at_angle (eps : ℝ) (A : Arc) (theta : ℝ) : Vector3d :=
  let sv := A.start.sub A.center
  let sd := if sv.norm ≤ eps then (⟨1, 0, 0⟩ : Vector3d) else sv.smul (sv.norm)⁻¹
  let perp := A.normal.cross sd
  A.center.add (((sd.smul (Real.cos theta)).add (perp.smul (Real.sin theta))).smul A.radius)

/-- Arc::angle_from_point: atan2 of the point direction expressed in the
(start-direction, perpendicular) in-plane frame; points within eps of the
center give angle 0. -/
def angle_from_point (eps : ℝ) (A : Arc) (p : Vector3d) : ℝ :=
  let sv := A.start.sub A.center
  let sd := if sv.norm ≤ eps then (⟨1, 0, 0⟩ : Vector3d) else sv.smul (sv.norm)⁻¹
  let perp := A.normal.cross sd
  let vec := p.sub A.center
  if vec.norm ≤ eps then 0
  else atan2 ((vec.smul (vec.norm)⁻¹).dot perp) ((vec.smul (vec.norm)⁻¹).dot sd)

/-- Arc::angle_in_range: the angle must lie between 0 and the sweep, inclusive
within eps, respecting the sweep sign. -/
def angle_in_range (eps : ℝ) (A : Arc) (theta : ℝ) : Prop :=
  if 0 ≤ A.sweep then -eps ≤ theta ∧ theta ≤ A.sweep + eps
  else theta ≤ eps ∧ A.sweep - eps ≤ theta

/-- Arc::contains: the angle from the point must be in range AND the radial
distance must match the radius within eps. -/
def contains (eps : ℝ) (A : Arc) (p : Vector3d) : Prop :=
  Arc.angle_in_range eps A (Arc.angle_from_point eps A p) ∧
    |(p.sub A.center).norm - A.radius| ≤ eps

/-- Arc::segment: the sub-arc between two angles measured from the start. -/
def segment (eps : ℝ) (A : Arc) (a b : ℝ) : Arc :=
  { center := A.center
    start := Arc.point_at_angle eps A a
    stop := Arc.point_at_angle eps A b
    normal := A.normal
    sweep := b - a
    radius := A.radius }

/-- Arc::break_at: split at the parametric position t; a parameter at or
outside the ends returns the arc unchanged, otherwise the two sub-arcs. -/
def break_at (eps : ℝ) (A : Arc) (t : ℝ) : List Arc :=
  if t ≤ 0 ∨ 1 ≤ t then [A]
  else [Arc.segment eps A 0 (A.sweep * t), Arc.segment eps A (A.sweep * t) A.sweep]

end Arc

/-- Lagrange identity for the cross product: the dot square of a cross product
is the product of dot squares minus the squared dot product (a ring identity). -/
lemma Vector3d.cross_dot_self (u v : Vector3d) :
    (u.cross v).dot (u.cross v) = (u.dot u) * (v.dot v) - (u.dot v) * (u.dot v) := by
  simp only [Vector3d.cross, Vector3d.dot]; ring

/-- A cross product is orthogonal to its first factor. -/
lemma Vector3d.cross_dot_left (u v : Vector3d) : (u.cross v).dot u = 0 := by
  simp only [Vector3d.cross, Vector3d.dot]; ring

/-- A cross product is orthogonal to its second factor. -/
lemma Vector3d.cross_dot_right (u v : Vector3d) : (u.cross v).dot v = 0 := by
  simp only [Vector3d.cross, Vector3d.dot]; ring

/-- Bilinearity of dot under scalar multiples. -/
lemma Vector3d.dot_smul_smul (u v : Vector3d) (a b : ℝ) :
    (u.smul a).dot (v.smul b) = a * b * (u.dot v) := by
  simp only [Vector3d.smul, Vector3d.dot]; ring

/-- Dot distributes over add on the left argument. -/
lemma Vector3d.add_dot (u v w : Vector3d) : (u.add v).dot w = u.dot w + v.dot w := by
  simp only [Vector3d.add, Vector3d.dot]; ring

/-- Dot distributes over add on the right argument. -/
lemma Vector3d.dot_add (u v w : Vector3d) : u.dot (v.add w) = u.dot v + u.dot w := by
  simp only [Vector3d.add, Vector3d.dot]; ring

/-- Dot of scalar multiple on the left. -/
lemma Vector3d.smul_dot (u v : Vector3d) (a : ℝ) : (u.smul a).dot v = a * (u.dot v) := by
  simp only [Vector3d.smul, Vector3d.dot]; ring

/-- Norm of a scalar multiple. -/
lemma Vector3d.norm_smul (v : Vector3d) (a : ℝ) : (v.smul a).norm = |a| * v.norm := by
  simp only [Vector3d.norm]
  have h : (v.smul a).dot (v.smul a) = (a * a) * v.dot v := by
    simp only [Vector3d.smul, Vector3d.dot]; ring
  rw [h, show (a * a) * v.dot v = a ^ 2 * v.dot v by ring, Real.sqrt_mul (sq_nonneg a),
    Real.sqrt_sq_eq_abs]

/-- Cancellation: subtracting after adding to the same base point. -/
lemma Vector3d.add_sub_cancel_left (u v : Vector3d) : (u.add v).sub u = v := by
  obtain ⟨vx, vy, vz⟩ := v
  simp only [Vector3d.add, Vector3d.sub, Vector3d.mk.injEq]
  refine ⟨by ring, by ring, by ring⟩

/-- Scalar multiple by one is the identity. -/
lemma Vector3d.smul_one (v : Vector3d) : v.smul 1 = v := by
  obtain ⟨a, b, c⟩ := v
  simp only [Vector3d.smul, Vector3d.mk.injEq]
  refine ⟨by ring, by ring, by ring⟩

/-- Scalar multiple by zero is the zero vector. -/
lemma Vector3d.smul_zero (v : Vector3d) : v.smul 0 = ⟨0, 0, 0⟩ := by
  simp only [Vector3d.smul, Vector3d.mk.injEq]
  refine ⟨by ring, by ring, by ring⟩

/-- Adding the zero vector is the identity. -/
lemma Vector3d.add_zero_vec (v : Vector3d) : v.add ⟨0, 0, 0⟩ = v := by
  obtain ⟨a, b, c⟩ := v
  simp only [Vector3d.add, Vector3d.mk.injEq]
  refine ⟨by ring, by ring, by ring⟩

/-- Iterated scalar multiples compose by multiplication. -/
lemma Vector3d.smul_smul (v : Vector3d) (a b : ℝ) : (v.smul a).smul b = v.smul (a * b) := by
  simp only [Vector3d.smul, Vector3d.mk.injEq]
  refine ⟨by ring, by ring, by ring⟩

/-- Dot with a negated left argument. -/
lemma Vector3d.neg_dot (u v : Vector3d) : (u.neg).dot v = -(u.dot v) := by
  simp only [Vector3d.neg, Vector3d.dot]; ring

/-- A vector is orthogonal to any cross product having it as a factor. -/
lemma Vector3d.dot_cross_self (u w : Vector3d) : w.dot (u.cross w) = 0 := by
  simp only [Vector3d.cross, Vector3d.dot]; ring

/-- A unit vector has norm one. -/
lemma Vector3d.norm_of_unit {v : Vector3d} (h : v.dot v = 1) : v.norm = 1 :=
  Vector3d.norm_eval (by norm_num) (by rw [h]; ring)

/-- Normalizing a unit vector is the identity. -/
lemma Vector3d.normalize_of_unit {v : Vector3d} (h : v.dot v = 1) : v.normalize = v := by
  rw [Vector3d.normalize, Vector3d.norm_of_unit h, inv_one, Vector3d.smul_one]

/-- atan2 at the point (x, y) = (1, 0) is zero. -/
lemma atan2_zero_one : atan2 0 1 = 0 := by
  rw [atan2]
  norm_num [Complex.arg_one]

/-- Projection of the center field of Arc::new. -/
lemma Arc.new_center (eps : ℝ) (c s e : Vector3d) (cw : Bool) :
    (Arc.new eps c s e cw).center = c := rfl

/-- Projection of the start field of Arc::new. -/
lemma Arc.new_start (eps : ℝ) (c s e : Vector3d) (cw : Bool) :
    (Arc.new eps c s e cw).start = s := rfl

/-- Projection of the stop field of Arc::new. -/
lemma Arc.new_stop (eps : ℝ) (c s e : Vector3d) (cw : Bool) :
    (Arc.new eps c s e cw).stop = e := rfl

/-- Dot of two negated vectors. -/
lemma Vector3d.neg_dot_neg (u v : Vector3d) : (u.neg).dot (v.neg) = u.dot v := by
  simp only [Vector3d.neg, Vector3d.dot]; ring


/-- In an orthonormal frame (u, n x u) the rotated direction at angle t1 dots
with the one at angle t2 to the cosine/sine combination. -/
lemma rot_dot (u n : Vector3d) (huu : u.dot u = 1) (hnn : n.dot n = 1)
    (hnu : n.dot u = 0) (t1 t2 : ℝ) :
    ((u.smul (Real.cos t1)).add ((n.cross u).smul (Real.sin t1))).dot
      ((u.smul (Real.cos t2)).add ((n.cross u).smul (Real.sin t2)))
      = Real.cos t1 * Real.cos t2 + Real.sin t1 * Real.sin t2 := by
  have hpp : (n.cross u).dot (n.cross u) = 1 := by
    rw [Vector3d.cross_dot_self, huu, hnn, hnu]; ring
  have hpu : (n.cross u).dot u = 0 := Vector3d.cross_dot_right n u
  have hup : u.dot (n.cross u) = 0 := by rw [Vector3d.dot_comm]; exact hpu
  rw [Vector3d.add_dot, Vector3d.dot_add, Vector3d.dot_add, Vector3d.dot_smul_smul,
    Vector3d.dot_smul_smul, Vector3d.dot_smul_smul, Vector3d.dot_smul_smul,
    huu, hpp, hup, hpu]
  ring

/-- The rotated direction is a unit vector. -/
lemma rot_unit (u n : Vector3d) (huu : u.dot u = 1) (hnn : n.dot n = 1)
    (hnu : n.dot u = 0) (t : ℝ) :
    ((u.smul (Real.cos t)).add ((n.cross u).smul (Real.sin t))).dot
      ((u.smul (Real.cos t)).add ((n.cross u).smul (Real.sin t))) = 1 := by
  rw [rot_dot u n huu hnn hnu t t]
  have := Real.sin_sq_add_cos_sq t
  nlinarith

/-- Dot of the rotated direction with u recovers the cosine. -/
lemma rot_dot_u (u n : Vector3d) (huu : u.dot u = 1) (hnu : n.dot u = 0) (t : ℝ) :
    ((u.smul (Real.cos t)).add ((n.cross u).smul (Real.sin t))).dot u = Real.cos t := by
  have hpu : (n.cross u).dot u = 0 := Vector3d.cross_dot_right n u
  rw [Vector3d.add_dot, Vector3d.smul_dot, Vector3d.smul_dot, huu, hpu]
  ring

/-- Dot of the rotated direction with n x u recovers the sine. -/
lemma rot_dot_perp (u n : Vector3d) (huu : u.dot u = 1) (hnn : n.dot n = 1)
    (hnu : n.dot u = 0) (t : ℝ) :
    ((u.smul (Real.cos t)).add ((n.cross u).smul (Real.sin t))).dot (n.cross u)
      = Real.sin t := by
  have hpp : (n.cross u).dot (n.cross u) = 1 := by
    rw [Vector3d.cross_dot_self, huu, hnn, hnu]; ring
  have hup : u.dot (n.cross u) = 0 := by
    rw [Vector3d.dot_comm]; exact Vector3d.cross_dot_right n u
  rw [Vector3d.add_dot, Vector3d.smul_dot, Vector3d.smul_dot, hup, hpp]
  ring

/-- Containment of the split point in the first sub-arc: the arc starting at
angle 0 with sweep t contains the point at angle t on its circle, provided the
frame is orthonormal, the radius exceeds eps >= 0, and t lies in (-pi, pi]. -/
lemma split_contains_stop (eps r0 t : ℝ) (c u n w : Vector3d)
    (heps : 0 ≤ eps) (hr0 : eps < r0)
    (huu : u.dot u = 1) (hnn : n.dot n = 1) (hnu : n.dot u = 0)
    (ht1 : -π < t) (ht2 : t ≤ π) :
    Arc.contains eps
      ⟨c, c.add (u.smul r0), w, n, t, r0⟩
      (c.add (((u.smul (Real.cos t)).add ((n.cross u).smul (Real.sin t))).smul r0)) := by
  have hr0pos : 0 < r0 := lt_of_le_of_lt heps hr0
  have hrotunit := rot_unit u n huu hnn hnu t
  have hstartnorm : ((u.smul r0)).norm = r0 := by
    rw [Vector3d.norm_smul, Vector3d.norm_of_unit huu, abs_of_pos hr0pos, mul_one]
  have hvecnorm : ((((u.smul (Real.cos t)).add ((n.cross u).smul (Real.sin t))).smul r0)).norm
      = r0 := by
    rw [Vector3d.norm_smul, Vector3d.norm_of_unit hrotunit, abs_of_pos hr0pos, mul_one]
  have hangle : Arc.angle_from_point eps
      (⟨c, c.add (u.smul r0), w, n, t, r0⟩ : Arc)
      (c.add (((u.smul (Real.cos t)).add ((n.cross u).smul (Real.sin t))).smul r0)) = t := by
    simp only [Arc.angle_from_point]
    simp only [Vector3d.add_sub_cancel_left, hstartnorm, hvecnorm]
    simp only [if_neg (not_le.mpr hr0)]
    simp only [Vector3d.smul_smul, mul_inv_cancel₀ (ne_of_gt hr0pos), Vector3d.smul_one]
    rw [rot_dot_u u n huu hnu t, rot_dot_perp u n huu hnn hnu t]
    exact atan2_cos_sin ht1 ht2
  rw [Arc.contains]
  constructor
  · rw [hangle, Arc.angle_in_range]
    dsimp only
    by_cases hsgn : 0 ≤ t
    · rw [if_pos hsgn]
      constructor <;> linarith
    · rw [if_neg hsgn]
      push_neg at hsgn
      constructor <;> linarith
  · dsimp only
    rw [Vector3d.add_sub_cancel_left, hvecnorm]
    simp [heps]

/-- Containment of the split point in the second sub-arc: an arc whose start IS
the point contains it (computed angle 0 is always in range), provided the frame
is orthonormal and the radius exceeds eps >= 0. -/
lemma split_contains_start (eps r0 t sw : ℝ) (c u n w : Vector3d)
    (heps : 0 ≤ eps) (hr0 : eps < r0)
    (huu : u.dot u = 1) (hnn : n.dot n = 1) (hnu : n.dot u = 0) :
    Arc.contains eps
      ⟨c, c.add (((u.smul (Real.cos t)).add ((n.cross u).smul (Real.sin t))).smul r0),
        w, n, sw, r0⟩
      (c.add (((u.smul (Real.cos t)).add ((n.cross u).smul (Real.sin t))).smul r0)) := by
  have hr0pos : 0 < r0 := lt_of_le_of_lt heps hr0
  have hrotunit := rot_unit u n huu hnn hnu t
  have hvecnorm : ((((u.smul (Real.cos t)).add ((n.cross u).smul (Real.sin t))).smul r0)).norm
      = r0 := by
    rw [Vector3d.norm_smul, Vector3d.norm_of_unit hrotunit, abs_of_pos hr0pos, mul_one]
  have hangle : Arc.angle_from_point eps
      (⟨c, c.add (((u.smul (Real.cos t)).add ((n.cross u).smul (Real.sin t))).smul r0),
        w, n, sw, r0⟩ : Arc)
      (c.add (((u.smul (Real.cos t)).add ((n.cross u).smul (Real.sin t))).smul r0)) = 0 := by
    simp only [Arc.angle_from_point]
    simp only [Vector3d.add_sub_cancel_left, hvecnorm]
    simp only [if_neg (not_le.mpr hr0)]
    simp only [Vector3d.smul_smul, mul_inv_cancel₀ (ne_of_gt hr0pos), Vector3d.smul_one]
    rw [Vector3d.dot_cross_self n ((u.smul (Real.cos t)).add ((n.cross u).smul (Real.sin t))),
      hrotunit]
    exact atan2_zero_one
  rw [Arc.contains]
  constructor
  · rw [hangle, Arc.angle_in_range]
    dsimp only
    by_cases hsgn : 0 ≤ sw
    · rw [if_pos hsgn]
      constructor <;> linarith
    · rw [if_neg hsgn]
      push_neg at hsgn
      constructor <;> linarith
  · dsimp only
    rw [Vector3d.add_sub_cancel_left, hvecnorm]
    simp [heps]

/- ------------------------------------------------------------------ -/
/- Claim C7: Arc::break_at(0.5) lengths and split-point containment    -/
/- ------------------------------------------------------------------ -/

/-- C7 amended: for an arc whose endpoints both lie farther than eps from the
center and are not collinear with it (radius-vector cross norm > eps),
break_at(0.5) returns exactly two arcs whose lengths sum exactly (hence within
eps) to the original length, and whose shared split point (end of the first,
start of the second) satisfies contains on both.  Degenerate arcs built from
collinear inputs can violate the containment, as the counterexample shows. -/
theorem C7_amended (eps : ℝ) (c s e : Vector3d) (cw : Bool)
    (heps : 0 ≤ eps)
    (hstart : eps < (s.sub c).norm) (hend : eps < (e.sub c).norm)
    (hcross : eps < ((s.sub c).cross (e.sub c)).norm) :
    (Arc.new eps c s e cw).sweep ≠ 0 ∧
    ∃ B1 B2 : Arc,
      Arc.break_at eps (Arc.new eps c s e cw) (1/2) = [B1, B2] ∧
      |B1.length + B2.length - (Arc.new eps c s e cw).length| ≤ eps ∧
      B1.stop = B2.start ∧
      Arc.contains eps B1 B1.stop ∧
      Arc.contains eps B2 B2.start := by
  have hpi := Real.pi_pos
  have hslpos : 0 < (s.sub c).norm := lt_of_le_of_lt heps hstart
  have hcrosspos : 0 < ((s.sub c).cross (e.sub c)).norm := lt_of_le_of_lt heps hcross
  have hr0eps : eps < (((s.sub c).norm + (e.sub c).norm) * 0.5) := by
    have h1 := hstart
    have h2 := hend
    norm_num
    linarith
  have huu : ((s.sub c).smul ((s.sub c).norm)⁻¹).dot ((s.sub c).smul ((s.sub c).norm)⁻¹) = 1 := by
    have := Vector3d.normalize_dot_self (v := s.sub c) hslpos
    rwa [Vector3d.normalize] at this
  have hm1 : Arc.mkNormal1 eps c s e cw
      = ((s.sub c).cross (e.sub c)).smul (((s.sub c).cross (e.sub c)).norm)⁻¹ := by
    rw [Arc.mkNormal1, if_neg (not_le.mpr hcross)]
  have hm1unit : (Arc.mkNormal1 eps c s e cw).dot (Arc.mkNormal1 eps c s e cw) = 1 := by
    rw [hm1]
    have := Vector3d.normalize_dot_self (v := (s.sub c).cross (e.sub c)) hcrosspos
    rwa [Vector3d.normalize] at this
  have hm1u : (Arc.mkNormal1 eps c s e cw).dot ((s.sub c).smul ((s.sub c).norm)⁻¹) = 0 := by
    rw [hm1, Vector3d.dot_smul_smul, Vector3d.cross_dot_left]
    ring
  have hm2unit : (Arc.mkNormal2 eps c s e cw).dot (Arc.mkNormal2 eps c s e cw) = 1 := by
    rw [Arc.mkNormal2]
    by_cases hb : eps < ((s.sub c).cross (e.sub c)).norm ∧ cw = true
    · rw [if_pos hb, Vector3d.neg_dot_neg]; exact hm1unit
    · rw [if_neg hb]; exact hm1unit
  have hm2u : (Arc.mkNormal2 eps c s e cw).dot ((s.sub c).smul ((s.sub c).norm)⁻¹) = 0 := by
    rw [Arc.mkNormal2]
    by_cases hb : eps < ((s.sub c).cross (e.sub c)).norm ∧ cw = true
    · rw [if_pos hb, Vector3d.neg_dot, hm1u]; ring
    · rw [if_neg hb]; exact hm1u
  have hnormal : (Arc.new eps c s e cw).normal = (Arc.mkNormal2 eps c s e cw) := by
    rw [Arc.new_normal, Vector3d.normalize_of_unit hm2unit]
  have hpaa : ∀ t : ℝ, Arc.point_at_angle eps (Arc.new eps c s e cw) t
      = c.add (((((s.sub c).smul ((s.sub c).norm)⁻¹).smul (Real.cos t)).add (((Arc.mkNormal2 eps c s e cw).cross ((s.sub c).smul ((s.sub c).norm)⁻¹)).smul (Real.sin t))).smul (((s.sub c).norm + (e.sub c).norm) * 0.5)) := by
    intro t
    simp only [Arc.point_at_angle, Arc.new_start, Arc.new_center, Arc.new_radius, hnormal]
    rw [if_neg (not_le.mpr hstart)]
  have hsweepmem : (cw = true → -(2*π) < (Arc.new eps c s e cw).sweep ∧ (Arc.new eps c s e cw).sweep < 0) ∧
      (cw = false → 0 < (Arc.new eps c s e cw).sweep ∧ (Arc.new eps c s e cw).sweep < 2*π) :=
    new_sweep_range eps c s e cw heps
  have hswne : (Arc.new eps c s e cw).sweep ≠ 0 := by
    cases cw
    · exact ne_of_gt (hsweepmem.2 rfl).1
    · exact ne_of_lt (hsweepmem.1 rfl).2
  have hphirange : -π < ((Arc.new eps c s e cw).sweep * (1/2)) ∧ ((Arc.new eps c s e cw).sweep * (1/2)) ≤ π := by
    cases cw
    · have h := hsweepmem.2 rfl
      constructor <;> nlinarith [h.1, h.2]
    · have h := hsweepmem.1 rfl
      constructor <;> nlinarith [h.1, h.2]
  have hrot0 : (((s.sub c).smul ((s.sub c).norm)⁻¹).smul (Real.cos 0)).add (((Arc.mkNormal2 eps c s e cw).cross ((s.sub c).smul ((s.sub c).norm)⁻¹)).smul (Real.sin 0)) = ((s.sub c).smul ((s.sub c).norm)⁻¹) := by
    rw [Real.cos_zero, Real.sin_zero, Vector3d.smul_one, Vector3d.smul_zero,
      Vector3d.add_zero_vec]
  have hseg1 : Arc.segment eps (Arc.new eps c s e cw) 0 ((Arc.new eps c s e cw).sweep * (1/2))
      = ⟨c, (c.add (((s.sub c).smul ((s.sub c).norm)⁻¹).smul (((s.sub c).norm + (e.sub c).norm) * 0.5))), (c.add (((((s.sub c).smul ((s.sub c).norm)⁻¹).smul (Real.cos ((Arc.new eps c s e cw).sweep * (1/2)))).add (((Arc.mkNormal2 eps c s e cw).cross ((s.sub c).smul ((s.sub c).norm)⁻¹)).smul (Real.sin ((Arc.new eps c s e cw).sweep * (1/2))))).smul (((s.sub c).norm + (e.sub c).norm) * 0.5))), (Arc.mkNormal2 eps c s e cw), ((Arc.new eps c s e cw).sweep * (1/2)), (((s.sub c).norm + (e.sub c).norm) * 0.5)⟩ := by
    rw [Arc.segment, hpaa 0, hpaa ((Arc.new eps c s e cw).sweep * (1/2)), hrot0]
    rw [Arc.new_center, hnormal, Arc.new_radius]
    rw [sub_zero]
  have hseg2 : Arc.segment eps (Arc.new eps c s e cw) ((Arc.new eps c s e cw).sweep * (1/2)) (Arc.new eps c s e cw).sweep
      = ⟨c, (c.add (((((s.sub c).smul ((s.sub c).norm)⁻¹).smul (Real.cos ((Arc.new eps c s e cw).sweep * (1/2)))).add (((Arc.mkNormal2 eps c s e cw).cross ((s.sub c).smul ((s.sub c).norm)⁻¹)).smul (Real.sin ((Arc.new eps c s e cw).sweep * (1/2))))).smul (((s.sub c).norm + (e.sub c).norm) * 0.5))), (c.add (((((s.sub c).smul ((s.sub c).norm)⁻¹).smul (Real.cos (Arc.new eps c s e cw).sweep)).add (((Arc.mkNormal2 eps c s e cw).cross ((s.sub c).smul ((s.sub c).norm)⁻¹)).smul (Real.sin (Arc.new eps c s e cw).sweep))).smul (((s.sub c).norm + (e.sub c).norm) * 0.5))), (Arc.mkNormal2 eps c s e cw), (Arc.new eps c s e cw).sweep - ((Arc.new eps c s e cw).sweep * (1/2)), (((s.sub c).norm + (e.sub c).norm) * 0.5)⟩ := by
    rw [Arc.segment, hpaa ((Arc.new eps c s e cw).sweep * (1/2)), hpaa (Arc.new eps c s e cw).sweep]
    rw [Arc.new_center, hnormal, Arc.new_radius]
  refine ⟨hswne, Arc.segment eps (Arc.new eps c s e cw) 0 ((Arc.new eps c s e cw).sweep * (1/2)),
      Arc.segment eps (Arc.new eps c s e cw) ((Arc.new eps c s e cw).sweep * (1/2)) (Arc.new eps c s e cw).sweep, ?_, ?_, rfl, ?_, ?_⟩
  · rw [Arc.break_at, if_neg (by norm_num)]
  · simp only [Arc.length, hseg1, hseg2]
    rw [Arc.new_radius]
    have h1 : (Arc.new eps c s e cw).sweep - ((Arc.new eps c s e cw).sweep * (1/2)) = ((Arc.new eps c s e cw).sweep * (1/2)) := by ring
    rw [h1]
    have h3 : |((Arc.new eps c s e cw).sweep * (1/2))| = |(Arc.new eps c s e cw).sweep| * (1/2) := by
      rw [abs_mul]
      norm_num
    rw [h3]
    have h4 : (((s.sub c).norm + (e.sub c).norm) * 0.5) * (|(Arc.new eps c s e cw).sweep| * (1/2)) + (((s.sub c).norm + (e.sub c).norm) * 0.5) * (|(Arc.new eps c s e cw).sweep| * (1/2))
        - (((s.sub c).norm + (e.sub c).norm) * 0.5) * |(Arc.new eps c s e cw).sweep| = 0 := by ring
    rw [h4]
    simpa using heps
  · rw [hseg1]
    show Arc.contains eps _ (c.add (((((s.sub c).smul ((s.sub c).norm)⁻¹).smul (Real.cos ((Arc.new eps c s e cw).sweep * (1/2)))).add (((Arc.mkNormal2 eps c s e cw).cross ((s.sub c).smul ((s.sub c).norm)⁻¹)).smul (Real.sin ((Arc.new eps c s e cw).sweep * (1/2))))).smul (((s.sub c).norm + (e.sub c).norm) * 0.5)))
    exact split_contains_stop eps (((s.sub c).norm + (e.sub c).norm) * 0.5) ((Arc.new eps c s e cw).sweep * (1/2)) c ((s.sub c).smul ((s.sub c).norm)⁻¹) (Arc.mkNormal2 eps c s e cw) (c.add (((((s.sub c).smul ((s.sub c).norm)⁻¹).smul (Real.cos ((Arc.new eps c s e cw).sweep * (1/2)))).add (((Arc.mkNormal2 eps c s e cw).cross ((s.sub c).smul ((s.sub c).norm)⁻¹)).smul (Real.sin ((Arc.new eps c s e cw).sweep * (1/2))))).smul (((s.sub c).norm + (e.sub c).norm) * 0.5))) heps hr0eps huu hm2unit hm2u
      hphirange.1 hphirange.2
  · rw [hseg2]
    show Arc.contains eps _ (c.add (((((s.sub c).smul ((s.sub c).norm)⁻¹).smul (Real.cos ((Arc.new eps c s e cw).sweep * (1/2)))).add (((Arc.mkNormal2 eps c s e cw).cross ((s.sub c).smul ((s.sub c).norm)⁻¹)).smul (Real.sin ((Arc.new eps c s e cw).sweep * (1/2))))).smul (((s.sub c).norm + (e.sub c).norm) * 0.5)))
    exact split_contains_start eps (((s.sub c).norm + (e.sub c).norm) * 0.5) ((Arc.new eps c s e cw).sweep * (1/2)) ((Arc.new eps c s e cw).sweep - ((Arc.new eps c s e cw).sweep * (1/2))) c ((s.sub c).smul ((s.sub c).norm)⁻¹) (Arc.mkNormal2 eps c s e cw) (c.add (((((s.sub c).smul ((s.sub c).norm)⁻¹).smul (Real.cos (Arc.new eps c s e cw).sweep)).add (((Arc.mkNormal2 eps c s e cw).cross ((s.sub c).smul ((s.sub c).norm)⁻¹)).smul (Real.sin (Arc.new eps c s e cw).sweep))).smul (((s.sub c).norm + (e.sub c).norm) * 0.5))) heps hr0eps huu
      hm2unit hm2u

/-- C7 witness: the quarter circle arc centered at the origin from (1,0,0) to
(0,1,0) satisfies the non-degeneracy assumptions of the amended theorem at the
default epsilon, and therefore its conclusion. -/
theorem C7_witness :
    (0 ≤ DEFAULT_EPSILON ∧
     DEFAULT_EPSILON < ((⟨1,0,0⟩ : Vector3d).sub ⟨0,0,0⟩).norm ∧
     DEFAULT_EPSILON < ((⟨0,1,0⟩ : Vector3d).sub ⟨0,0,0⟩).norm ∧
     DEFAULT_EPSILON < (((⟨1,0,0⟩ : Vector3d).sub ⟨0,0,0⟩).cross
        ((⟨0,1,0⟩ : Vector3d).sub ⟨0,0,0⟩)).norm) ∧
    ((Arc.new DEFAULT_EPSILON ⟨0,0,0⟩ ⟨1,0,0⟩ ⟨0,1,0⟩ false).sweep ≠ 0 ∧
     ∃ B1 B2 : Arc,
       Arc.break_at DEFAULT_EPSILON
           (Arc.new DEFAULT_EPSILON ⟨0,0,0⟩ ⟨1,0,0⟩ ⟨0,1,0⟩ false) (1/2) = [B1, B2] ∧
       |B1.length + B2.length
           - (Arc.new DEFAULT_EPSILON ⟨0,0,0⟩ ⟨1,0,0⟩ ⟨0,1,0⟩ false).length| ≤ DEFAULT_EPSILON ∧
       B1.stop = B2.start ∧
       Arc.contains DEFAULT_EPSILON B1 B1.stop ∧
       Arc.contains DEFAULT_EPSILON B2 B2.start) := by
  have h0 : 0 ≤ DEFAULT_EPSILON := by norm_num [DEFAULT_EPSILON]
  have h1 : DEFAULT_EPSILON < ((⟨1,0,0⟩ : Vector3d).sub ⟨0,0,0⟩).norm := by
    have := Vector3d.norm_eval (v := (⟨1,0,0⟩ : Vector3d).sub ⟨0,0,0⟩) (r := 1)
      (by norm_num) (by norm_num [Vector3d.sub, Vector3d.dot])
    rw [this]; norm_num [DEFAULT_EPSILON]
  have h2 : DEFAULT_EPSILON < ((⟨0,1,0⟩ : Vector3d).sub ⟨0,0,0⟩).norm := by
    have := Vector3d.norm_eval (v := (⟨0,1,0⟩ : Vector3d).sub ⟨0,0,0⟩) (r := 1)
      (by norm_num) (by norm_num [Vector3d.sub, Vector3d.dot])
    rw [this]; norm_num [DEFAULT_EPSILON]
  have h3 : DEFAULT_EPSILON < (((⟨1,0,0⟩ : Vector3d).sub ⟨0,0,0⟩).cross
      ((⟨0,1,0⟩ : Vector3d).sub ⟨0,0,0⟩)).norm := by
    have := Vector3d.norm_eval
      (v := ((⟨1,0,0⟩ : Vector3d).sub ⟨0,0,0⟩).cross ((⟨0,1,0⟩ : Vector3d).sub ⟨0,0,0⟩))
      (r := 1) (by norm_num)
      (by norm_num [Vector3d.sub, Vector3d.cross, Vector3d.dot])
    rw [this]; norm_num [DEFAULT_EPSILON]
  exact ⟨⟨h0, h1, h2, h3⟩,
    C7_amended DEFAULT_EPSILON ⟨0,0,0⟩ ⟨1,0,0⟩ ⟨0,1,0⟩ false h0 h1 h2 h3⟩

/-- C7 counterexample: the degenerate arc Arc::new((0,0,0),(0,0,1),(0,0,2),ccw)
(center and endpoints collinear, fallback normal parallel to the radius
direction) has sweep pi, and break_at(0.5) produces a first sub-arc whose end,
the shared split point, it does NOT contain: the split point collapses to the
center, whose radial distance 0 differs from the radius 3/2 by more than
epsilon.  The claim fails for this arc with non-zero sweep. -/
theorem C7_counterexample :
    (Arc.new DEFAULT_EPSILON ⟨0,0,0⟩ ⟨0,0,1⟩ ⟨0,0,2⟩ false).sweep ≠ 0 ∧
    ∃ B1 B2 : Arc,
      Arc.break_at DEFAULT_EPSILON
          (Arc.new DEFAULT_EPSILON ⟨0,0,0⟩ ⟨0,0,1⟩ ⟨0,0,2⟩ false) (1/2) = [B1, B2] ∧
      B1.stop = B2.start ∧
      ¬ Arc.contains DEFAULT_EPSILON B1 B1.stop := by
  have h1 : ((⟨0,0,1⟩ : Vector3d).sub ⟨0,0,0⟩).norm = 1 :=
    Vector3d.norm_eval (by norm_num) (by norm_num [Vector3d.sub, Vector3d.dot])
  have h2 : ((⟨0,0,2⟩ : Vector3d).sub ⟨0,0,0⟩).norm = 2 :=
    Vector3d.norm_eval (by norm_num) (by norm_num [Vector3d.sub, Vector3d.dot])
  have hzv : ((⟨0,0,0⟩ : Vector3d)).norm = 0 :=
    Vector3d.norm_eval le_rfl (by norm_num [Vector3d.dot])
  have hsd : Arc.startDir DEFAULT_EPSILON ⟨0,0,0⟩ ⟨0,0,1⟩ = ⟨0,0,1⟩ := by
    simp only [Arc.startDir, h1]
    rw [if_neg (by norm_num [DEFAULT_EPSILON])]
    norm_num [Vector3d.sub, Vector3d.smul, Vector3d.mk.injEq]
  have hed : Arc.endDir DEFAULT_EPSILON ⟨0,0,0⟩ ⟨0,0,1⟩ ⟨0,0,2⟩ = ⟨0,0,1⟩ := by
    simp only [Arc.endDir, h2]
    rw [if_neg (by norm_num [DEFAULT_EPSILON])]
    norm_num [Vector3d.sub, Vector3d.smul, Vector3d.mk.injEq]
  have hraw : Arc.rawSweep DEFAULT_EPSILON ⟨0,0,0⟩ ⟨0,0,1⟩ ⟨0,0,2⟩ false = 0 := by
    simp only [Arc.rawSweep, hsd, hed]
    have hcr : (⟨0,0,1⟩ : Vector3d).cross ⟨0,0,1⟩ = (⟨0,0,0⟩ : Vector3d) := by
      norm_num [Vector3d.cross, Vector3d.mk.injEq]
    rw [hcr, hzv]
    rw [show ((⟨0,0,1⟩ : Vector3d)).dot ⟨0,0,1⟩ = 1 from by norm_num [Vector3d.dot]]
    rw [show max (-1 : ℝ) (min 1 1) = 1 from by norm_num]
    rw [atan2_zero_one]
    rw [show ((⟨0,0,0⟩ : Vector3d)).dot
        (Arc.mkNormal2 DEFAULT_EPSILON ⟨0,0,0⟩ ⟨0,0,1⟩ ⟨0,0,2⟩ false) = 0 from by
      norm_num [Vector3d.dot]]
    norm_num
  have hsweep : (Arc.new DEFAULT_EPSILON ⟨0,0,0⟩ ⟨0,0,1⟩ ⟨0,0,2⟩ false).sweep = π := by
    rw [Arc.new_sweep, hraw]
    rw [if_pos (by norm_num [DEFAULT_EPSILON])]
    rfl
  have hswne : (Arc.new DEFAULT_EPSILON ⟨0,0,0⟩ ⟨0,0,1⟩ ⟨0,0,2⟩ false).sweep ≠ 0 := by
    rw [hsweep]; exact Real.pi_ne_zero
  have hcr0 : ((⟨0,0,1⟩ : Vector3d).sub ⟨0,0,0⟩).cross ((⟨0,0,2⟩ : Vector3d).sub ⟨0,0,0⟩)
      = (⟨0,0,0⟩ : Vector3d) := by
    norm_num [Vector3d.sub, Vector3d.cross, Vector3d.mk.injEq]
  have hnormal1 : Arc.mkNormal1 DEFAULT_EPSILON ⟨0,0,0⟩ ⟨0,0,1⟩ ⟨0,0,2⟩ false = ⟨0,0,1⟩ := by
    rw [Arc.mkNormal1]
    simp only [hcr0, hzv]
    rw [if_pos (by norm_num [DEFAULT_EPSILON])]
    rfl
  have hnormal2 : Arc.mkNormal2 DEFAULT_EPSILON ⟨0,0,0⟩ ⟨0,0,1⟩ ⟨0,0,2⟩ false = ⟨0,0,1⟩ := by
    rw [Arc.mkNormal2, if_neg (by simp)]
    exact hnormal1
  have hnormfinal : (Arc.new DEFAULT_EPSILON ⟨0,0,0⟩ ⟨0,0,1⟩ ⟨0,0,2⟩ false).normal
      = ⟨0,0,1⟩ := by
    rw [Arc.new_normal, hnormal2,
      Vector3d.normalize_of_unit (by norm_num [Vector3d.dot])]
  have hradius : (Arc.new DEFAULT_EPSILON ⟨0,0,0⟩ ⟨0,0,1⟩ ⟨0,0,2⟩ false).radius = 3/2 := by
    rw [Arc.new_radius, h1, h2]; norm_num
  have hstop : Arc.point_at_angle DEFAULT_EPSILON
      (Arc.new DEFAULT_EPSILON ⟨0,0,0⟩ ⟨0,0,1⟩ ⟨0,0,2⟩ false)
      ((Arc.new DEFAULT_EPSILON ⟨0,0,0⟩ ⟨0,0,1⟩ ⟨0,0,2⟩ false).sweep * (1/2))
      = ⟨0,0,0⟩ := by
    simp only [Arc.point_at_angle, Arc.new_start, Arc.new_center, h1, hnormfinal, hsweep,
      hradius]
    rw [if_neg (by norm_num [DEFAULT_EPSILON])]
    have hsd2 : ((⟨0,0,1⟩ : Vector3d).sub ⟨0,0,0⟩).smul (1:ℝ)⁻¹ = ⟨0,0,1⟩ := by
      norm_num [Vector3d.sub, Vector3d.smul, Vector3d.mk.injEq]
    rw [hsd2]
    rw [show (⟨0,0,1⟩ : Vector3d).cross ⟨0,0,1⟩ = (⟨0,0,0⟩ : Vector3d) from by
      norm_num [Vector3d.cross, Vector3d.mk.injEq]]
    rw [show Real.cos (π * (1/2)) = 0 from by
      rw [show π * (1/2) = π / 2 from by ring]; exact Real.cos_pi_div_two]
    norm_num [Vector3d.smul, Vector3d.add, Vector3d.mk.injEq]
  refine ⟨hswne,
    Arc.segment DEFAULT_EPSILON (Arc.new DEFAULT_EPSILON ⟨0,0,0⟩ ⟨0,0,1⟩ ⟨0,0,2⟩ false) 0
      ((Arc.new DEFAULT_EPSILON ⟨0,0,0⟩ ⟨0,0,1⟩ ⟨0,0,2⟩ false).sweep * (1/2)),
    Arc.segment DEFAULT_EPSILON (Arc.new DEFAULT_EPSILON ⟨0,0,0⟩ ⟨0,0,1⟩ ⟨0,0,2⟩ false)
      ((Arc.new DEFAULT_EPSILON ⟨0,0,0⟩ ⟨0,0,1⟩ ⟨0,0,2⟩ false).sweep * (1/2))
      (Arc.new DEFAULT_EPSILON ⟨0,0,0⟩ ⟨0,0,1⟩ ⟨0,0,2⟩ false).sweep, ?_, rfl, ?_⟩
  · rw [Arc.break_at, if_neg (by norm_num)]
  · intro hcon
    rw [Arc.contains] at hcon
    have hrad := hcon.2
    simp only [Arc.segment] at hrad
    rw [hstop, Arc.new_center, hradius] at hrad
    rw [show ((⟨0,0,0⟩ : Vector3d)).sub ⟨0,0,0⟩ = (⟨0,0,0⟩ : Vector3d) from by
      norm_num [Vector3d.sub, Vector3d.mk.injEq]] at hrad
    rw [hzv] at hrad
    norm_num [DEFAULT_EPSILON] at hrad
    rw [abs_of_nonneg (by norm_num : (0:ℝ) ≤ 3/2)] at hrad
    norm_num at hrad

/- ------------------------------------------------------------------ -/
/- Polygon (crates/geometry/src/polygon.rs)                            -/
/- ------------------------------------------------------------------ -/

/-- All cyclically adjacent pairs (vertex i, vertex (i+1) mod n) of a list, in
index order, as used by every edge loop of polygon.rs. -/
def cyclicPairs {α : Type} : List α → List (α × α)
  | [] => []
  | a :: rest => (a :: rest).zip (rest ++ [a])

/-- All ordered pairs (l[j], l[k]) with j < k, in lexicographic order. -/
def pairsList {α : Type} : List α → List (α × α)
  | [] => []
  | b :: rest => rest.map (fun c => (b, c)) ++ pairsList rest

/-- All ordered triples (l[i], l[j], l[k]) with i < j < k, in lexicographic
order — the scan order of the nested triple loop of Polygon::new. -/
def triplesList {α : Type} : List α → List (α × α × α)
  | [] => []
  | a :: rest => (pairsList rest).map (fun bc => (a, bc.1, bc.2)) ++ triplesList rest

/-- First element of a list satisfying a predicate (the break-on-first-match
loops of polygon.rs). -/
def findFirst {α : Type} (p : α → Prop) : List α → Option α
  | [] => none
  | a :: rest => if p a then some a else findFirst p rest

/-- Helper for Vec::dedup_by: prev is the last kept element; an element within
eps of prev is dropped, otherwise kept and made the new prev. -/
def dedupAux (eps : ℝ) : Vector3d → List Vector3d → List Vector3d
  | _, [] => []
  | prev, a :: rest =>
      if (a.sub prev).norm ≤ eps then dedupAux eps prev rest
      else a :: dedupAux eps a rest

/-- verts.dedup_by(|a, b| a.is_approx(b, Some(epsilon()))) from Polygon::new:
keeps the first element of every run of consecutive eps-close vertices. -/
def dedup (eps : ℝ) : List Vector3d → List Vector3d
  | [] => []
  | a :: rest => a :: dedupAux eps a rest

/-- A planar polygon (polygon.rs `Polygon`): vertices after dedup+projection,
the plane normal, the rotation columns ex/ey/ez, the centroid, the SIGNED area
and the perimeter. -/
structure Polygon where
  vertices : List Vector3d
  normal : Vector3d
  ex : Vector3d
  ey : Vector3d
  ez : Vector3d
  centroid : Vector3d
  area : ℝ
  perimeter : ℝ

namespace Polygon

/-- Plane fitting of Polygon::new: scan ordered triples for the first with
cross norm > eps; base is that triple's first vertex (or vertex 0), the normal
is the normalized cross (fallback +Z if the scan fails, detected by the norm of
the accumulated normal being <= eps). -/
def planeFit (eps : ℝ) (verts : List Vector3d) : Vector3d × Vector3d :=
  let found := findFirst
    (fun t : Vector3d × Vector3d × Vector3d =>
      eps < ((t.2.1.sub t.1).cross (t.2.2.sub t.1)).norm) (triplesList verts)
  let base := match found with
    | some t => t.1
    | none => verts.headI
  let normal0 := match found with
    | some t => ((t.2.1.sub t.1).cross (t.2.2.sub t.1)).normalize
    | none => (⟨0, 0, 0⟩ : Vector3d)
  if normal0.norm ≤ eps then (base, ⟨0, 0, 1⟩) else (base, normal0)

/-- Selection of the local X axis of Polygon::new: first edge of the projected
loop with norm > eps (fallback (1,0,0)), projected into the plane, normalized;
if that projection is within eps of zero, fall back to normalize(ez x globalY)
(or (1,0,0) when that cross product is itself within eps of zero). -/
def pickEx (eps : ℝ) (ez : Vector3d) (pv : List Vector3d) : Vector3d :=
  let edges := (cyclicPairs pv).map (fun pq => pq.2.sub pq.1)
  let ex0 := (findFirst (fun ed : Vector3d => eps < ed.norm) edges).getD ⟨1, 0, 0⟩
  let ex1 := ex0.sub (ez.smul (ex0.dot ez))
  if ex1.norm ≤ eps then
    (if (ez.cross ⟨0, 1, 0⟩).norm ≤ eps then (⟨1, 0, 0⟩ : Vector3d)
     else ez.cross ⟨0, 1, 0⟩).normalize
  else ex1.normalize

/-- Coordinates of v in the frame with the given origin and orthonormal columns
(the rotation-transpose product of polygon.rs). -/
def toFrame (ex ey ez origin v : Vector3d) : Vector3d :=
  ⟨ex.dot (v.sub origin), ey.dot (v.sub origin), ez.dot (v.sub origin)⟩

/-- Twice the signed shoelace area of the local 2D loop. -/
def shoelaceArea2 (ls : List Vector3d) : ℝ :=
  ((cyclicPairs ls).map (fun pq => pq.1.x * pq.2.y - pq.2.x * pq.1.y)).sum

/-- Numerator sum of the centroid x coordinate. -/
def shoelaceCx (ls : List Vector3d) : ℝ :=
  ((cyclicPairs ls).map (fun pq =>
    (pq.1.x + pq.2.x) * (pq.1.x * pq.2.y - pq.2.x * pq.1.y))).sum

/-- Numerator sum of the centroid y coordinate. -/
def shoelaceCy (ls : List Vector3d) : ℝ :=
  ((cyclicPairs ls).map (fun pq =>
    (pq.1.y + pq.2.y) * (pq.1.x * pq.2.y - pq.2.x * pq.1.y))).sum

/-- Perimeter sum of the local loop. -/
def perimSum (ls : List Vector3d) : ℝ :=
  ((cyclicPairs ls).map (fun pq => (pq.2.sub pq.1).norm)).sum

/-- The total (never-failing) part of Polygon::new, applied to the deduplicated
vertex list: plane fit, projection, frame construction, shoelace area/centroid
and perimeter. -/
def build (eps : ℝ) (dd : List Vector3d) : Polygon :=
  let pf := Polygon.planeFit eps dd
  let pv := dd.map (fun v => v.sub (pf.2.smul ((v.sub pf.1).dot pf.2)))
  let ez := pf.2
  let ex := Polygon.pickEx eps ez pv
  let ey := ez.cross ex
  let ls := pv.map (Polygon.toFrame ex ey ez pv.headI)
  let area2 := Polygon.shoelaceArea2 ls
  let area := area2 / 2
  let cx := if eps < |area| then Polygon.shoelaceCx ls / (3 * area2)
    else (ls.map Vector3d.x).sum / ls.length
  let cy := if eps < |area| then Polygon.shoelaceCy ls / (3 * area2)
    else (ls.map Vector3d.y).sum / ls.length
  { vertices := pv
    normal := ez
    ex := ex
    ey := ey
    ez := ez
    centroid := pv.headI.add ((ex.smul cx).add (ey.smul cy))
    area := area
    perimeter := Polygon.perimSum ls }

/-- Polygon::new: assert at least 3 vertices, dedup consecutive eps-close
vertices, assert at least 3 remain, then build.  The asserts are modelled as
construction failure (None). -/
def new (eps : ℝ) (verts : List Vector3d) : Option Polygon :=
  if verts.length < 3 then none
  else
    let dd := dedup eps verts
    if dd.length < 3 then none else some (Polygon.build eps dd)

/-- Polygon::area (public): absolute value of the signed area. -/
def areaAbs (P : Polygon) : ℝ := |P.area|

/-- Polygon::to_local: rotation-transpose of the offset from the centroid. -/
def to_local (P : Polygon) (p : Vector3d) : Vector3d :=
  Polygon.toFrame P.ex P.ey P.ez P.centroid p

/-- Polygon::to_global: centroid plus rotation times the local coordinates. -/
def to_global (P : Polygon) (l : Vector3d) : Vector3d :=
  P.centroid.add (((P.ex.smul l.x).add (P.ey.smul l.y)).add (P.ez.smul l.z))

end Polygon

/-- Orthonormal expansion: if a and c are unit vectors with c orthogonal to a,
then every vector d is the sum of its projections on a, c x a, and c. -/
lemma ortho_expand (a c d : Vector3d) (ha : a.dot a = 1) (hc : c.dot c = 1)
    (hac : c.dot a = 0) :
    ((a.smul (a.dot d)).add ((c.cross a).smul ((c.cross a).dot d))).add
      (c.smul (c.dot d)) = d := by
  obtain ⟨a1, a2, a3⟩ := a
  obtain ⟨c1, c2, c3⟩ := c
  obtain ⟨d1, d2, d3⟩ := d
  simp only [Vector3d.dot] at ha hc hac
  simp only [Vector3d.smul, Vector3d.add, Vector3d.cross, Vector3d.dot, Vector3d.mk.injEq]
  refine ⟨?_, ?_, ?_⟩
  · linear_combination (d1 * (c1*c1+c2*c2+c3*c3) - c1 * (c1*d1+c2*d2+c3*d3)) * ha +
      (d1 - a1*(a1*d1+a2*d2+a3*d3)) * hc +
      (a1*(c1*d1+c2*d2+c3*d3) + c1*(a1*d1+a2*d2+a3*d3) - d1*(c1*a1+c2*a2+c3*a3)) * hac
  · linear_combination (d2 * (c1*c1+c2*c2+c3*c3) - c2 * (c1*d1+c2*d2+c3*d3)) * ha +
      (d2 - a2*(a1*d1+a2*d2+a3*d3)) * hc +
      (a2*(c1*d1+c2*d2+c3*d3) + c2*(a1*d1+a2*d2+a3*d3) - d2*(c1*a1+c2*a2+c3*a3)) * hac
  · linear_combination (d3 * (c1*c1+c2*c2+c3*c3) - c3 * (c1*d1+c2*d2+c3*d3)) * ha +
      (d3 - a3*(a1*d1+a2*d2+a3*d3)) * hc +
      (a3*(c1*d1+c2*d2+c3*d3) + c3*(a1*d1+a2*d2+a3*d3) - d3*(c1*a1+c2*a2+c3*a3)) * hac

/-- An element returned by findFirst satisfies the predicate. -/
lemma findFirst_some {α : Type} {p : α → Prop} :
    ∀ {l : List α} {a : α}, findFirst p l = some a → p a := by
  intro l
  induction l with
  | nil => intro a h; simp [findFirst] at h
  | cons b rest ih =>
      intro a h
      rw [findFirst] at h
      by_cases hb : p b
      · rw [if_pos hb] at h
        cases h
        exact hb
      · rw [if_neg hb] at h
        exact ih h

/-- Both components of a cyclically adjacent pair are elements of the list. -/
lemma cyclicPairs_mem {α : Type} {l : List α} {pq : α × α}
    (h : pq ∈ cyclicPairs l) : pq.1 ∈ l ∧ pq.2 ∈ l := by
  cases l with
  | nil => simp [cyclicPairs] at h
  | cons a rest =>
      rw [cyclicPairs] at h
      have h2 := List.of_mem_zip h
      refine ⟨h2.1, ?_⟩
      have h3 := h2.2
      rw [List.mem_append] at h3
      rcases h3 with h3 | h3
      · exact List.mem_cons_of_mem a h3
      · rw [List.mem_singleton] at h3
        rw [h3]
        exact List.mem_cons_self a rest

/-- An element returned by findFirst is a member of the list. -/
lemma findFirst_mem {α : Type} {p : α → Prop} :
    ∀ {l : List α} {a : α}, findFirst p l = some a → a ∈ l := by
  intro l
  induction l with
  | nil => intro a h; simp [findFirst] at h
  | cons b rest ih =>
      intro a h
      rw [findFirst] at h
      by_cases hb : p b
      · rw [if_pos hb] at h
        cases h
        exact List.mem_cons_self b rest
      · rw [if_neg hb] at h
        exact List.mem_cons_of_mem b (ih h)

/-- Dot with a scalar multiple on the right. -/
lemma Vector3d.dot_smul (u v : Vector3d) (a : ℝ) : u.dot (v.smul a) = a * (u.dot v) := by
  simp only [Vector3d.smul, Vector3d.dot]; ring

/-- Dot distributes over sub on the left argument. -/
lemma Vector3d.sub_dot (u v w : Vector3d) : (u.sub v).dot w = u.dot w - v.dot w := by
  simp only [Vector3d.sub, Vector3d.dot]; ring

/-- Subtracting the zero vector is the identity. -/
lemma Vector3d.sub_zero_vec (v : Vector3d) : v.sub ⟨0, 0, 0⟩ = v := by
  obtain ⟨a, b, c⟩ := v
  simp only [Vector3d.sub, Vector3d.mk.injEq]
  refine ⟨by ring, by ring, by ring⟩

/-- A vector is orthogonal to a cross product in which it is the first factor. -/
lemma Vector3d.self_dot_cross (u v : Vector3d) : u.dot (u.cross v) = 0 := by
  simp only [Vector3d.cross, Vector3d.dot]; ring

/-- From a norm bound the dot square bound follows. -/
lemma Vector3d.dot_le_of_norm_le {v : Vector3d} {e : ℝ} (he : 0 ≤ e) (h : v.norm ≤ e) :
    v.dot v ≤ e * e := by
  have h1 := v.mul_self_norm
  have h2 := v.norm_nonneg
  nlinarith

/-- Adding back a difference recovers the other endpoint. -/
lemma Vector3d.add_sub_cancel (u v : Vector3d) : u.add (v.sub u) = v := by
  obtain ⟨vx, vy, vz⟩ := v
  simp only [Vector3d.add, Vector3d.sub, Vector3d.mk.injEq]
  refine ⟨by ring, by ring, by ring⟩

/-- The second component of the fitted plane of Polygon::new is always a unit
vector, for every eps >= 0. -/
lemma planeFit_snd_unit (eps : ℝ) (verts : List Vector3d) (heps : 0 ≤ eps) :
    ((Polygon.planeFit eps verts).2).dot ((Polygon.planeFit eps verts).2) = 1 := by
  simp only [Polygon.planeFit]
  rcases hf : findFirst (fun t : Vector3d × Vector3d × Vector3d =>
      eps < ((t.2.1.sub t.1).cross (t.2.2.sub t.1)).norm) (triplesList verts) with _ | t
  · simp only [hf]
    rw [if_pos]
    · norm_num [Vector3d.dot]
    · rw [show ((⟨0,0,0⟩ : Vector3d)).norm = 0 from
        Vector3d.norm_eval le_rfl (by norm_num [Vector3d.dot])]
      exact heps
  · simp only [hf]
    have hp := findFirst_some hf
    have hpos : 0 < ((t.2.1.sub t.1).cross (t.2.2.sub t.1)).norm := lt_of_le_of_lt heps hp
    have hunit := Vector3d.normalize_dot_self hpos
    by_cases hcond : (((t.2.1.sub t.1).cross (t.2.2.sub t.1)).normalize).norm ≤ eps
    · rw [if_pos hcond]
      norm_num [Vector3d.dot]
    · rw [if_neg hcond]
      exact hunit

/-- The edges of the projected vertex loop are exactly orthogonal to the (unit)
projection normal. -/
lemma proj_edges_orth (eps : ℝ) (p0 ez : Vector3d) (dd : List Vector3d)
    (hez : ez.dot ez = 1) :
    ∀ pq ∈ cyclicPairs (dd.map (fun v => v.sub (ez.smul ((v.sub p0).dot ez)))),
      (pq.2.sub pq.1).dot ez = 0 := by
  intro pq hpq
  obtain ⟨h1, h2⟩ := cyclicPairs_mem hpq
  obtain ⟨a, _, ha⟩ := List.mem_map.mp h1
  obtain ⟨b, _, hb⟩ := List.mem_map.mp h2
  rw [← ha, ← hb]
  simp only [Vector3d.sub_dot, Vector3d.smul_dot]
  rw [hez]
  ring

/-- Dot distributes over sub on the right argument. -/
lemma Vector3d.dot_sub (u v w : Vector3d) : u.dot (v.sub w) = u.dot v - u.dot w := by
  simp only [Vector3d.sub, Vector3d.dot]; ring

/-- The local X axis selected by Polygon::new is a unit vector orthogonal to
the plane normal, provided 0 <= eps <= 1/2, the normal is unit, and every edge
of the projected loop is orthogonal to the normal. -/
lemma pickEx_spec (eps : ℝ) (ez : Vector3d) (pv : List Vector3d)
    (heps : 0 ≤ eps) (heps2 : eps ≤ 1/2) (hez : ez.dot ez = 1)
    (hedges : ∀ pq ∈ cyclicPairs pv, (pq.2.sub pq.1).dot ez = 0) :
    (Polygon.pickEx eps ez pv).dot (Polygon.pickEx eps ez pv) = 1 ∧
    ez.dot (Polygon.pickEx eps ez pv) = 0 := by
  have key : ∀ v : Vector3d, eps < v.norm → ez.dot v = 0 →
      (v.normalize).dot (v.normalize) = 1 ∧ ez.dot (v.normalize) = 0 := by
    intro v hv hvz
    have hpos : 0 < v.norm := lt_of_le_of_lt heps hv
    refine ⟨Vector3d.normalize_dot_self hpos, ?_⟩
    rw [Vector3d.normalize, Vector3d.dot_smul, hvz]
    ring
  have hproj : ∀ w : Vector3d, ez.dot (w.sub (ez.smul (w.dot ez))) = 0 := by
    intro w
    rw [Vector3d.dot_sub, Vector3d.dot_smul, hez, Vector3d.dot_comm ez w]
    ring
  simp only [Polygon.pickEx]
  rcases hf : findFirst (fun ed : Vector3d => eps < Vector3d.norm ed)
      ((cyclicPairs pv).map (fun pq => pq.2.sub pq.1)) with _ | ed
  · simp only [hf, Option.getD_none]
    by_cases hb1 : ((⟨1,0,0⟩ : Vector3d).sub
        (ez.smul ((⟨1,0,0⟩ : Vector3d).dot ez))).norm ≤ eps
    · simp only [if_pos hb1]
      by_cases hb2 : (ez.cross ⟨0,1,0⟩).norm ≤ eps
      · exfalso
        have hd1 := Vector3d.dot_le_of_norm_le heps hb1
        have hd2 := Vector3d.dot_le_of_norm_le heps hb2
        simp only [Vector3d.sub, Vector3d.smul, Vector3d.dot, Vector3d.cross] at hd1 hd2 hez
        nlinarith [hd1, hd2, hez, heps, heps2]
      · simp only [if_neg hb2]
        exact key _ (not_le.mp hb2) (Vector3d.self_dot_cross ez ⟨0,1,0⟩)
    · simp only [if_neg hb1]
      exact key _ (not_le.mp hb1) (hproj ⟨1,0,0⟩)
  · simp only [hf, Option.getD_some]
    have hedmem := findFirst_mem hf
    have hedp : eps < ed.norm :=
      @findFirst_some Vector3d (fun x : Vector3d => eps < x.norm) _ ed hf
    obtain ⟨pq, hpq, hpqe⟩ := List.mem_map.mp hedmem
    have hedz : ed.dot ez = 0 := by rw [← hpqe]; exact hedges pq hpq
    have hex1 : ed.sub (ez.smul (ed.dot ez)) = ed := by
      rw [hedz, Vector3d.smul_zero, Vector3d.sub_zero_vec]
    rw [hex1]
    simp only [if_neg (not_le.mpr hedp)]
    exact key ed hedp (by rw [Vector3d.dot_comm]; exact hedz)

/-- The ez column of the built polygon is the fitted plane normal. -/
lemma Polygon.build_ez (eps : ℝ) (dd : List Vector3d) :
    (Polygon.build eps dd).ez = (Polygon.planeFit eps dd).2 := rfl

/-- The ex column of the built polygon is the selected local X axis of the
projected loop. -/
lemma Polygon.build_ex (eps : ℝ) (dd : List Vector3d) :
    (Polygon.build eps dd).ex = Polygon.pickEx eps (Polygon.planeFit eps dd).2
      (dd.map (fun v => v.sub ((Polygon.planeFit eps dd).2.smul
        ((v.sub (Polygon.planeFit eps dd).1).dot (Polygon.planeFit eps dd).2)))) := rfl

/-- The ey column of the built polygon is ez cross ex. -/
lemma Polygon.build_ey (eps : ℝ) (dd : List Vector3d) :
    (Polygon.build eps dd).ey = (Polygon.planeFit eps dd).2.cross ((Polygon.build eps dd).ex) :=
  rfl

/-- Round trip through the built local frame is the identity, for
0 <= eps <= 1/2 and every deduplicated vertex list and point. -/
lemma build_roundtrip (eps : ℝ) (dd : List Vector3d) (p : Vector3d)
    (heps : 0 ≤ eps) (heps2 : eps ≤ 1/2) :
    Polygon.to_global (Polygon.build eps dd) (Polygon.to_local (Polygon.build eps dd) p)
      = p := by
  have hez := planeFit_snd_unit eps dd heps
  have hedges := proj_edges_orth eps (Polygon.planeFit eps dd).1 (Polygon.planeFit eps dd).2
    dd hez
  have hex := pickEx_spec eps (Polygon.planeFit eps dd).2
    (dd.map (fun v => v.sub ((Polygon.planeFit eps dd).2.smul
      ((v.sub (Polygon.planeFit eps dd).1).dot (Polygon.planeFit eps dd).2))))
    heps heps2 hez hedges
  rw [← Polygon.build_ex] at hex
  rw [show (Polygon.planeFit eps dd).2 = (Polygon.build eps dd).ez from rfl] at hex hez
  rw [Polygon.to_global, Polygon.to_local, Polygon.toFrame]
  rw [Polygon.build_ey,
    show (Polygon.planeFit eps dd).2 = (Polygon.build eps dd).ez from rfl]
  have hexp := ortho_expand ((Polygon.build eps dd).ex) ((Polygon.build eps dd).ez)
    (p.sub (Polygon.build eps dd).centroid) hex.1 hez hex.2
  dsimp only
  rw [hexp]
  exact Vector3d.add_sub_cancel _ p

/- ------------------------------------------------------------------ -/
/- Claim C5: Polygon to_global/to_local round trip                     -/
/- ------------------------------------------------------------------ -/

/-- C5: for every polygon accepted by Polygon::new (with 0 <= eps <= 1/2, which
covers the default 1e-12 and any reasonable tolerance) and every point p,
to_global(to_local(p)) equals p EXACTLY — the basis built at construction is
exactly orthonormal — hence in particular within eps. -/
theorem C5_roundtrip (eps : ℝ) (verts : List Vector3d) (P : Polygon) (p : Vector3d)
    (heps : 0 ≤ eps) (heps2 : eps ≤ 1/2)
    (hP : Polygon.new eps verts = some P) :
    P.to_global (P.to_local p) = p := by
  simp only [Polygon.new] at hP
  by_cases h1 : verts.length < 3
  · rw [if_pos h1] at hP; cases hP
  · rw [if_neg h1] at hP
    by_cases h2 : (dedup eps verts).length < 3
    · rw [if_pos h2] at hP; cases hP
    · rw [if_neg h2] at hP
      have hPb : P = Polygon.build eps (dedup eps verts) := (Option.some.inj hP).symm
      rw [hPb]
      exact build_roundtrip eps (dedup eps verts) p heps heps2

/-- Witness for C5: the unit square is accepted by Polygon::new at the default
epsilon and the round trip is the identity at (3,4,5). -/
theorem C5_witness :
    0 ≤ DEFAULT_EPSILON ∧ DEFAULT_EPSILON ≤ 1/2 ∧
    ∃ P : Polygon,
      Polygon.new DEFAULT_EPSILON
        [⟨0,0,0⟩, ⟨1,0,0⟩, ⟨1,1,0⟩, ⟨0,1,0⟩] = some P ∧
      P.to_global (P.to_local ⟨3,4,5⟩) = ⟨3,4,5⟩ := by
  have hd01 : ¬ (((⟨1,0,0⟩ : Vector3d).sub ⟨0,0,0⟩).norm ≤ DEFAULT_EPSILON) := by
    rw [Vector3d.norm_eval (r := 1) (by norm_num)
      (by norm_num [Vector3d.sub, Vector3d.dot])]
    norm_num [DEFAULT_EPSILON]
  have hd12 : ¬ (((⟨1,1,0⟩ : Vector3d).sub ⟨1,0,0⟩).norm ≤ DEFAULT_EPSILON) := by
    rw [Vector3d.norm_eval (r := 1) (by norm_num)
      (by norm_num [Vector3d.sub, Vector3d.dot])]
    norm_num [DEFAULT_EPSILON]
  have hd23 : ¬ (((⟨0,1,0⟩ : Vector3d).sub ⟨1,1,0⟩).norm ≤ DEFAULT_EPSILON) := by
    rw [Vector3d.norm_eval (r := 1) (by norm_num)
      (by norm_num [Vector3d.sub, Vector3d.dot])]
    norm_num [DEFAULT_EPSILON]
  have hdedup : dedup DEFAULT_EPSILON
      [(⟨0,0,0⟩ : Vector3d), ⟨1,0,0⟩, ⟨1,1,0⟩, ⟨0,1,0⟩]
      = [⟨0,0,0⟩, ⟨1,0,0⟩, ⟨1,1,0⟩, ⟨0,1,0⟩] := by
    rw [dedup, dedupAux, if_neg hd01, dedupAux, if_neg hd12, dedupAux, if_neg hd23,
      dedupAux]
  have hnew : Polygon.new DEFAULT_EPSILON
      [(⟨0,0,0⟩ : Vector3d), ⟨1,0,0⟩, ⟨1,1,0⟩, ⟨0,1,0⟩]
      = some (Polygon.build DEFAULT_EPSILON
          (dedup DEFAULT_EPSILON [⟨0,0,0⟩, ⟨1,0,0⟩, ⟨1,1,0⟩, ⟨0,1,0⟩])) := by
    rw [Polygon.new]
    rw [if_neg (by norm_num)]
    rw [if_neg (by rw [hdedup]; norm_num)]
  refine ⟨by norm_num [DEFAULT_EPSILON], by norm_num [DEFAULT_EPSILON],
    Polygon.build DEFAULT_EPSILON
      (dedup DEFAULT_EPSILON [⟨0,0,0⟩, ⟨1,0,0⟩, ⟨1,1,0⟩, ⟨0,1,0⟩]),
    hnew, ?_⟩
  exact C5_roundtrip DEFAULT_EPSILON _ _ _ (by norm_num [DEFAULT_EPSILON])
    (by norm_num [DEFAULT_EPSILON]) hnew

/-- Full evaluation of Polygon::new on an axis-aligned rectangle with corners
(x0,y0) and (x1,y1) in the z = 0 plane, for any tolerance below the dimensions:
the frame is the standard basis, the centroid the center, the signed area
(x1-x0)(y1-y0) and the perimeter twice the half sides. -/
lemma rect_new_eval (eps x0 y0 x1 y1 : ℝ) (heps : 0 ≤ eps)
    (hw : eps < x1 - x0) (hh : eps < y1 - y0)
    (ha : eps < (x1 - x0) * (y1 - y0)) (h1 : eps < 1) :
    Polygon.new eps [⟨x0, y0, 0⟩, ⟨x1, y0, 0⟩, ⟨x1, y1, 0⟩, ⟨x0, y1, 0⟩] = some
      { vertices := [⟨x0, y0, 0⟩, ⟨x1, y0, 0⟩, ⟨x1, y1, 0⟩, ⟨x0, y1, 0⟩]
        normal := ⟨0, 0, 1⟩
        ex := ⟨1, 0, 0⟩
        ey := ⟨0, 1, 0⟩
        ez := ⟨0, 0, 1⟩
        centroid := ⟨(x0 + x1) / 2, (y0 + y1) / 2, 0⟩
        area := (x1 - x0) * (y1 - y0)
        perimeter := 2 * ((x1 - x0) + (y1 - y0)) } := by
  have hw0 : (0:ℝ) < x1 - x0 := lt_of_le_of_lt heps hw
  have hh0 : (0:ℝ) < y1 - y0 := lt_of_le_of_lt heps hh
  have hwh0 : (0:ℝ) < (x1 - x0) * (y1 - y0) := mul_pos hw0 hh0
  have hd01 : ¬ (((⟨x1, y0, 0⟩ : Vector3d).sub ⟨x0, y0, 0⟩).norm ≤ eps) := by
    refine not_le.mpr ((Vector3d.lt_norm_iff heps).mpr ?_)
    simp only [Vector3d.sub, Vector3d.dot]
    nlinarith
  have hd12 : ¬ (((⟨x1, y1, 0⟩ : Vector3d).sub ⟨x1, y0, 0⟩).norm ≤ eps) := by
    refine not_le.mpr ((Vector3d.lt_norm_iff heps).mpr ?_)
    simp only [Vector3d.sub, Vector3d.dot]
    nlinarith
  have hd23 : ¬ (((⟨x0, y1, 0⟩ : Vector3d).sub ⟨x1, y1, 0⟩).norm ≤ eps) := by
    refine not_le.mpr ((Vector3d.lt_norm_iff heps).mpr ?_)
    simp only [Vector3d.sub, Vector3d.dot]
    nlinarith
  have hdedup : dedup eps [(⟨x0, y0, 0⟩ : Vector3d), ⟨x1, y0, 0⟩, ⟨x1, y1, 0⟩, ⟨x0, y1, 0⟩]
      = [⟨x0, y0, 0⟩, ⟨x1, y0, 0⟩, ⟨x1, y1, 0⟩, ⟨x0, y1, 0⟩] := by
    rw [dedup, dedupAux, if_neg hd01, dedupAux, if_neg hd12, dedupAux, if_neg hd23,
      dedupAux]
  have hcross : ((⟨x1, y0, 0⟩ : Vector3d).sub ⟨x0, y0, 0⟩).cross
      ((⟨x1, y1, 0⟩ : Vector3d).sub ⟨x0, y0, 0⟩) = ⟨0, 0, (x1 - x0) * (y1 - y0)⟩ := by
    simp only [Vector3d.sub, Vector3d.cross, Vector3d.mk.injEq]
    refine ⟨by ring, by ring, by ring⟩
  have hcrossnorm : (((⟨x1, y0, 0⟩ : Vector3d).sub ⟨x0, y0, 0⟩).cross
      ((⟨x1, y1, 0⟩ : Vector3d).sub ⟨x0, y0, 0⟩)).norm = (x1 - x0) * (y1 - y0) := by
    rw [hcross]
    exact Vector3d.norm_eval (le_of_lt hwh0) (by simp only [Vector3d.dot]; ring)
  have hfind : findFirst
      (fun t : Vector3d × Vector3d × Vector3d =>
        eps < ((t.2.1.sub t.1).cross (t.2.2.sub t.1)).norm)
      (triplesList [(⟨x0, y0, 0⟩ : Vector3d), ⟨x1, y0, 0⟩, ⟨x1, y1, 0⟩, ⟨x0, y1, 0⟩])
      = some (⟨x0, y0, 0⟩, ⟨x1, y0, 0⟩, ⟨x1, y1, 0⟩) := by
    have hl : triplesList [(⟨x0, y0, 0⟩ : Vector3d), ⟨x1, y0, 0⟩, ⟨x1, y1, 0⟩, ⟨x0, y1, 0⟩]
        = [(⟨x0, y0, 0⟩, ⟨x1, y0, 0⟩, ⟨x1, y1, 0⟩), (⟨x0, y0, 0⟩, ⟨x1, y0, 0⟩, ⟨x0, y1, 0⟩),
           (⟨x0, y0, 0⟩, ⟨x1, y1, 0⟩, ⟨x0, y1, 0⟩), (⟨x1, y0, 0⟩, ⟨x1, y1, 0⟩, ⟨x0, y1, 0⟩)] := by
      simp [triplesList, pairsList]
    rw [hl]
    simp only [findFirst]
    rw [if_pos (show eps < (((⟨x1, y0, 0⟩ : Vector3d).sub ⟨x0, y0, 0⟩).cross
      ((⟨x1, y1, 0⟩ : Vector3d).sub ⟨x0, y0, 0⟩)).norm by rw [hcrossnorm]; exact ha)]
  have hplane : Polygon.planeFit eps
      [(⟨x0, y0, 0⟩ : Vector3d), ⟨x1, y0, 0⟩, ⟨x1, y1, 0⟩, ⟨x0, y1, 0⟩]
      = (⟨x0, y0, 0⟩, ⟨0, 0, 1⟩) := by
    have hnz : ((⟨0, 0, (x1 - x0) * (y1 - y0)⟩ : Vector3d)).normalize = ⟨0, 0, 1⟩ := by
      rw [Vector3d.normalize,
        Vector3d.norm_eval (le_of_lt hwh0) (by simp only [Vector3d.dot]; ring)]
      simp only [Vector3d.smul, Vector3d.mk.injEq]
      exact ⟨by ring, by ring, mul_inv_cancel₀ (ne_of_gt hwh0)⟩
    simp only [Polygon.planeFit, hfind]
    rw [hcross, hnz]
    rw [if_neg]
    rw [Vector3d.norm_eval (le_of_lt one_pos)
      (by simp only [Vector3d.dot]; ring : (⟨0, 0, 1⟩ : Vector3d).dot ⟨0, 0, 1⟩ = 1 * 1)]
    exact not_le.mpr h1
  have hplane1 : (Polygon.planeFit eps
      [(⟨x0, y0, 0⟩ : Vector3d), ⟨x1, y0, 0⟩, ⟨x1, y1, 0⟩, ⟨x0, y1, 0⟩]).1
      = ⟨x0, y0, 0⟩ := by rw [hplane]
  have hplane2 : (Polygon.planeFit eps
      [(⟨x0, y0, 0⟩ : Vector3d), ⟨x1, y0, 0⟩, ⟨x1, y1, 0⟩, ⟨x0, y1, 0⟩]).2
      = ⟨0, 0, 1⟩ := by rw [hplane]
  have hproj : List.map (fun v : Vector3d => v.sub ((⟨(0:ℝ), 0, 1⟩ : Vector3d).smul
        ((v.sub (⟨x0, y0, (0:ℝ)⟩ : Vector3d)).dot ⟨(0:ℝ), 0, 1⟩)))
      [(⟨x0, y0, 0⟩ : Vector3d), ⟨x1, y0, 0⟩, ⟨x1, y1, 0⟩, ⟨x0, y1, 0⟩]
      = [⟨x0, y0, 0⟩, ⟨x1, y0, 0⟩, ⟨x1, y1, 0⟩, ⟨x0, y1, 0⟩] := by
    norm_num [Vector3d.sub, Vector3d.dot, Vector3d.smul, Vector3d.mk.injEq]
  have he1 : eps < ((⟨x1, y0, 0⟩ : Vector3d).sub ⟨x0, y0, 0⟩).norm := by
    refine (Vector3d.lt_norm_iff heps).mpr ?_
    simp only [Vector3d.sub, Vector3d.dot]
    nlinarith
  have hpick : Polygon.pickEx eps ⟨0, 0, 1⟩
      [(⟨x0, y0, 0⟩ : Vector3d), ⟨x1, y0, 0⟩, ⟨x1, y1, 0⟩, ⟨x0, y1, 0⟩] = ⟨1, 0, 0⟩ := by
    have hcp : cyclicPairs [(⟨x0, y0, 0⟩ : Vector3d), ⟨x1, y0, 0⟩, ⟨x1, y1, 0⟩, ⟨x0, y1, 0⟩]
        = [(⟨x0, y0, 0⟩, ⟨x1, y0, 0⟩), (⟨x1, y0, 0⟩, ⟨x1, y1, 0⟩),
           (⟨x1, y1, 0⟩, ⟨x0, y1, 0⟩), (⟨x0, y1, 0⟩, ⟨x0, y0, 0⟩)] := by
      simp [cyclicPairs]
    simp only [Polygon.pickEx, hcp, List.map_cons, List.map_nil]
    have hff : findFirst (fun ed : Vector3d => eps < ed.norm)
        [(⟨x1, y0, 0⟩ : Vector3d).sub ⟨x0, y0, 0⟩, (⟨x1, y1, 0⟩ : Vector3d).sub ⟨x1, y0, 0⟩,
         (⟨x0, y1, 0⟩ : Vector3d).sub ⟨x1, y1, 0⟩, (⟨x0, y0, 0⟩ : Vector3d).sub ⟨x0, y1, 0⟩]
        = some ((⟨x1, y0, 0⟩ : Vector3d).sub ⟨x0, y0, 0⟩) := by
      simp only [findFirst]
      rw [if_pos he1]
    rw [hff]
    simp only [Option.getD_some]
    have hex1 : ((⟨x1, y0, 0⟩ : Vector3d).sub ⟨x0, y0, 0⟩).sub
        ((⟨(0:ℝ), 0, 1⟩ : Vector3d).smul
          ((((⟨x1, y0, 0⟩ : Vector3d).sub ⟨x0, y0, 0⟩)).dot ⟨(0:ℝ), 0, 1⟩))
        = ⟨x1 - x0, 0, 0⟩ := by
      norm_num [Vector3d.sub, Vector3d.dot, Vector3d.smul, Vector3d.mk.injEq]
    rw [hex1]
    rw [if_neg (not_le.mpr (show eps < (⟨x1 - x0, 0, 0⟩ : Vector3d).norm from
      (Vector3d.lt_norm_iff heps).mpr (by simp only [Vector3d.dot]; nlinarith)))]
    rw [Vector3d.normalize,
      Vector3d.norm_eval (le_of_lt hw0) (by simp only [Vector3d.dot]; ring)]
    simp only [Vector3d.smul, Vector3d.mk.injEq]
    exact ⟨mul_inv_cancel₀ (ne_of_gt hw0), by ring, by ring⟩
  have hey : (⟨(0:ℝ), 0, 1⟩ : Vector3d).cross ⟨1, 0, 0⟩ = ⟨0, 1, 0⟩ := by
    simp only [Vector3d.cross, Vector3d.mk.injEq]
    refine ⟨by ring, by ring, by ring⟩
  have hls : List.map (Polygon.toFrame ⟨1, 0, 0⟩ ⟨0, 1, 0⟩ ⟨0, 0, 1⟩ ⟨x0, y0, 0⟩)
      [(⟨x0, y0, 0⟩ : Vector3d), ⟨x1, y0, 0⟩, ⟨x1, y1, 0⟩, ⟨x0, y1, 0⟩]
      = [⟨0, 0, 0⟩, ⟨x1 - x0, 0, 0⟩, ⟨x1 - x0, y1 - y0, 0⟩, ⟨0, y1 - y0, 0⟩] := by
    norm_num [Polygon.toFrame, Vector3d.sub, Vector3d.dot, Vector3d.mk.injEq]
  have hcpls : cyclicPairs [(⟨0, 0, 0⟩ : Vector3d), ⟨x1 - x0, 0, 0⟩,
        ⟨x1 - x0, y1 - y0, 0⟩, ⟨0, y1 - y0, 0⟩]
      = [(⟨0, 0, 0⟩, ⟨x1 - x0, 0, 0⟩), (⟨x1 - x0, 0, 0⟩, ⟨x1 - x0, y1 - y0, 0⟩),
         (⟨x1 - x0, y1 - y0, 0⟩, ⟨0, y1 - y0, 0⟩), (⟨0, y1 - y0, 0⟩, ⟨0, 0, 0⟩)] := by
    simp [cyclicPairs]
  have harea2 : Polygon.shoelaceArea2 [(⟨0, 0, 0⟩ : Vector3d), ⟨x1 - x0, 0, 0⟩,
        ⟨x1 - x0, y1 - y0, 0⟩, ⟨0, y1 - y0, 0⟩] = 2 * ((x1 - x0) * (y1 - y0)) := by
    simp only [Polygon.shoelaceArea2, hcpls, List.map_cons, List.map_nil, List.sum_cons,
      List.sum_nil]
    ring
  have hcx : Polygon.shoelaceCx [(⟨0, 0, 0⟩ : Vector3d), ⟨x1 - x0, 0, 0⟩,
        ⟨x1 - x0, y1 - y0, 0⟩, ⟨0, y1 - y0, 0⟩]
      = 3 * ((x1 - x0) * (x1 - x0) * (y1 - y0)) := by
    simp only [Polygon.shoelaceCx, hcpls, List.map_cons, List.map_nil, List.sum_cons,
      List.sum_nil]
    ring
  have hcy : Polygon.shoelaceCy [(⟨0, 0, 0⟩ : Vector3d), ⟨x1 - x0, 0, 0⟩,
        ⟨x1 - x0, y1 - y0, 0⟩, ⟨0, y1 - y0, 0⟩]
      = 3 * ((x1 - x0) * ((y1 - y0) * (y1 - y0))) := by
    simp only [Polygon.shoelaceCy, hcpls, List.map_cons, List.map_nil, List.sum_cons,
      List.sum_nil]
    ring
  have hn1 : ((⟨x1 - x0, 0, 0⟩ : Vector3d).sub ⟨0, 0, 0⟩).norm = x1 - x0 := by
    refine Vector3d.norm_eval (le_of_lt hw0) ?_
    simp only [Vector3d.sub, Vector3d.dot]
    ring
  have hn2 : ((⟨x1 - x0, y1 - y0, 0⟩ : Vector3d).sub ⟨x1 - x0, 0, 0⟩).norm = y1 - y0 := by
    refine Vector3d.norm_eval (le_of_lt hh0) ?_
    simp only [Vector3d.sub, Vector3d.dot]
    ring
  have hn3 : ((⟨0, y1 - y0, 0⟩ : Vector3d).sub ⟨x1 - x0, y1 - y0, 0⟩).norm = x1 - x0 := by
    refine Vector3d.norm_eval (le_of_lt hw0) ?_
    simp only [Vector3d.sub, Vector3d.dot]
    ring
  have hn4 : ((⟨(0:ℝ), 0, 0⟩ : Vector3d).sub ⟨0, y1 - y0, 0⟩).norm = y1 - y0 := by
    refine Vector3d.norm_eval (le_of_lt hh0) ?_
    simp only [Vector3d.sub, Vector3d.dot]
    ring
  have hperim : Polygon.perimSum [(⟨0, 0, 0⟩ : Vector3d), ⟨x1 - x0, 0, 0⟩,
        ⟨x1 - x0, y1 - y0, 0⟩, ⟨0, y1 - y0, 0⟩] = 2 * ((x1 - x0) + (y1 - y0)) := by
    simp only [Polygon.perimSum, hcpls, List.map_cons, List.map_nil, List.sum_cons,
      List.sum_nil, hn1, hn2, hn3, hn4]
    ring
  have hcond : eps < |2 * ((x1 - x0) * (y1 - y0)) / 2| := by
    have h2 : 2 * ((x1 - x0) * (y1 - y0)) / 2 = (x1 - x0) * (y1 - y0) := by ring
    rw [h2, abs_of_pos hwh0]
    exact ha
  simp only [Polygon.new]
  rw [if_neg (by norm_num)]
  rw [hdedup]
  rw [if_neg (by norm_num)]
  simp only [Polygon.build]
  rw [hplane1, hplane2, hproj, hpick, hey]
  rw [show ([(⟨x0, y0, 0⟩ : Vector3d), ⟨x1, y0, 0⟩, ⟨x1, y1, 0⟩, ⟨x0, y1, 0⟩]).headI
    = (⟨x0, y0, 0⟩ : Vector3d) from rfl]
  rw [hls, harea2, hcx, hcy, hperim]
  simp only [if_pos hcond]
  simp only [Option.some.injEq, Polygon.mk.injEq]
  refine ⟨trivial, trivial, trivial, trivial, trivial, ?_, by ring, trivial⟩
  have hcxv : 3 * ((x1 - x0) * (x1 - x0) * (y1 - y0)) / (3 * (2 * ((x1 - x0) * (y1 - y0))))
      = (x1 - x0) / 2 := by
    rw [div_eq_div_iff (by nlinarith) (by norm_num)]
    ring
  have hcyv : 3 * ((x1 - x0) * ((y1 - y0) * (y1 - y0))) / (3 * (2 * ((x1 - x0) * (y1 - y0))))
      = (y1 - y0) / 2 := by
    rw [div_eq_div_iff (by nlinarith) (by norm_num)]
    ring
  rw [hcxv, hcyv]
  simp only [Vector3d.add, Vector3d.smul, Vector3d.mk.injEq]
  refine ⟨by ring, by ring, by ring⟩

/-- Origin-based Ixx accumulator of local_second_moment_of_area:
sum of (py^2 + py*qy + qy^2) * cross over the cyclic edge loop. -/
def ix0sumL (ls : List Vector3d) : ℝ :=
  ((cyclicPairs ls).map (fun pq =>
    (pq.1.y * pq.1.y + pq.1.y * pq.2.y + pq.2.y * pq.2.y)
      * (pq.1.x * pq.2.y - pq.2.x * pq.1.y))).sum

/-- Origin-based Iyy accumulator: sum of (px^2 + px*qx + qx^2) * cross. -/
def iy0sumL (ls : List Vector3d) : ℝ :=
  ((cyclicPairs ls).map (fun pq =>
    (pq.1.x * pq.1.x + pq.1.x * pq.2.x + pq.2.x * pq.2.x)
      * (pq.1.x * pq.2.y - pq.2.x * pq.1.y))).sum

/-- Origin-based Ixy accumulator: sum of
(px*qy + 2 px*py + 2 qx*qy + qx*py) * cross. -/
def ixy0sumL (ls : List Vector3d) : ℝ :=
  ((cyclicPairs ls).map (fun pq =>
    (pq.1.x * pq.2.y + 2 * (pq.1.x * pq.1.y) + 2 * (pq.2.x * pq.2.y)
      + pq.2.x * pq.1.y)
      * (pq.1.x * pq.2.y - pq.2.x * pq.1.y))).sum

/-- Polygon::local_second_moment_of_area: rebuild local coordinates about the
first vertex, shoelace area/centroid, origin second moments, then the parallel
axis theorem; returns the 2x2 matrix ((m00, m01), (m10, m11)), and zeros when
the recomputed area is within the settable epsilon of zero. -/
def Polygon.local_second_moment_of_area (eps : ℝ) (P : Polygon) : (ℝ × ℝ) × (ℝ × ℝ) :=
  let ls := P.vertices.map (Polygon.toFrame P.ex P.ey P.ez P.vertices.headI)
  let area2 := Polygon.shoelaceArea2 ls
  let area := 0.5 * area2
  if |area| ≤ eps then ((0, 0), (0, 0))
  else
    let cx := Polygon.shoelaceCx ls / (3 * area2)
    let cy := Polygon.shoelaceCy ls / (3 * area2)
    let ix0 := ix0sumL ls / 12
    let iy0 := iy0sumL ls / 12
    let ixy0 := ixy0sumL ls / 24
    ((ix0 - area * cy * cy, ixy0 - area * cx * cy),
     (ixy0 - area * cx * cy, iy0 - area * cx * cx))

/-- shape.rs rectangle_polygon: axis-aligned rectangle centred at the origin,
fed to Polygon::new (whose asserts are modelled as None). -/
def rectangle_polygon (eps w h : ℝ) : Option Polygon :=
  Polygon.new eps [⟨-(w / 2), -(h / 2), 0⟩, ⟨w / 2, -(h / 2), 0⟩,
    ⟨w / 2, h / 2, 0⟩, ⟨-(w / 2), h / 2, 0⟩]

/-- shape.rs Rectangle. -/
structure Rectangle where
  width : ℝ
  height : ℝ
  hole_width : ℝ
  hole_height : ℝ
  polygon : Polygon

/-- Rectangle::new: assert width > epsilon() and height > epsilon(), then build
the polygon. -/
def Rectangle.new (eps w h hw hh : ℝ) : Option Rectangle :=
  if eps < w ∧ eps < h then
    (rectangle_polygon eps w h).map (fun P => ⟨w, h, hw, hh, P⟩)
  else none

/-- Rectangle (Shape::area via impl_polygon_shape): the cached polygon's area. -/
def Rectangle.area (R : Rectangle) : ℝ := R.polygon.areaAbs

/-- Rectangle::to_polygon: clone of the cached polygon. -/
def Rectangle.to_polygon (R : Rectangle) : Polygon := R.polygon

/-- Rectangle::linearized: ignores the sides argument, returns the cached
polygon. -/
def Rectangle.linearized (R : Rectangle) (sides : ℕ) : Polygon := R.polygon

/-- shape.rs Disk: radius and hole radius only, no cached polygon. -/
structure Disk where
  radius : ℝ
  hole_radius : ℝ

/-- Disk::new: assert radius > hole_radius (the ONLY validation). -/
def Disk.new (r hr : ℝ) : Option Disk :=
  if hr < r then some ⟨r, hr⟩ else none

/-- shape.rs regular_ngon: assert radius > 0 and sides >= 3, then the vertex
ring radius * (cos(i * 2pi/sides), sin(i * 2pi/sides), 0) fed to Polygon::new. -/
def regular_ngon (eps r : ℝ) (sides : ℕ) : Option Polygon :=
  if 0 < r ∧ 3 ≤ sides then
    Polygon.new eps ((List.range sides).map (fun i : ℕ =>
      ⟨r * Real.cos ((i : ℝ) * (2 * π / sides)), r * Real.sin ((i : ℝ) * (2 * π / sides)), 0⟩))
  else none

/-- Disk::linearized: regular_ngon at max(sides, 256). -/
def Disk.linearized (eps : ℝ) (D : Disk) (sides : ℕ) : Option Polygon :=
  regular_ngon eps D.radius (max sides 256)

/-- shape.rs ShapeI. -/
structure ShapeI where
  bottom_width : ℝ
  top_width : ℝ
  height : ℝ
  bottom_thickness : ℝ
  top_thickness : ℝ
  web_thickness : ℝ
  fillet : ℝ
  polygon : Polygon

/-- ShapeI::new: assert height > bottom_thickness + top_thickness (the only
validation), then the 12-vertex I outline fed to Polygon::new. -/
def ShapeI.new (eps bw tw h bt tt wt fl : ℝ) : Option ShapeI :=
  if bt + tt < h then
    (Polygon.new eps
      [⟨-(bw / 2), -(h / 2), 0⟩, ⟨bw / 2, -(h / 2), 0⟩,
       ⟨bw / 2, -(h / 2) + bt, 0⟩, ⟨wt / 2, -(h / 2) + bt, 0⟩,
       ⟨wt / 2, h / 2 - tt, 0⟩, ⟨tw / 2, h / 2 - tt, 0⟩,
       ⟨tw / 2, h / 2, 0⟩, ⟨-(tw / 2), h / 2, 0⟩,
       ⟨-(tw / 2), h / 2 - tt, 0⟩, ⟨-(wt / 2), h / 2 - tt, 0⟩,
       ⟨-(wt / 2), -(h / 2) + bt, 0⟩, ⟨-(bw / 2), -(h / 2) + bt, 0⟩]).map
      (fun P => ⟨bw, tw, h, bt, tt, wt, fl, P⟩)
  else none

/-- ShapeI::to_polygon. -/
def ShapeI.to_polygon (S : ShapeI) : Polygon := S.polygon

/-- ShapeI::linearized: ignores sides. -/
def ShapeI.linearized (S : ShapeI) (sides : ℕ) : Polygon := S.polygon

/-- shape.rs ShapeC. -/
structure ShapeC where
  bottom_width : ℝ
  top_width : ℝ
  height : ℝ
  bottom_thickness : ℝ
  top_thickness : ℝ
  web_thickness : ℝ
  fillet : ℝ
  polygon : Polygon

/-- ShapeC::new: assert height > bottom_thickness + top_thickness (the only
validation), then the 10-vertex channel outline. -/
def ShapeC.new (eps bw tw h bt tt wt fl : ℝ) : Option ShapeC :=
  if bt + tt < h then
    (Polygon.new eps
      [⟨0, -(h / 2), 0⟩, ⟨bw, -(h / 2), 0⟩, ⟨bw, -(h / 2) + bt, 0⟩,
       ⟨wt, -(h / 2) + bt, 0⟩, ⟨wt, h / 2 - tt, 0⟩, ⟨tw, h / 2 - tt, 0⟩,
       ⟨tw, h / 2, 0⟩, ⟨0, h / 2, 0⟩, ⟨0, h / 2 - tt, 0⟩,
       ⟨0, -(h / 2) + bt, 0⟩]).map
      (fun P => ⟨bw, tw, h, bt, tt, wt, fl, P⟩)
  else none

/-- ShapeC::to_polygon. -/
def ShapeC.to_polygon (S : ShapeC) : Polygon := S.polygon

/-- ShapeC::linearized: ignores sides. -/
def ShapeC.linearized (S : ShapeC) (sides : ℕ) : Polygon := S.polygon

/-- shape.rs ShapeL. -/
structure ShapeL where
  width : ℝ
  height : ℝ
  flange_thickness : ℝ
  web_thickness : ℝ
  fillet : ℝ
  polygon : Polygon

/-- ShapeL::new: assert width > web_thickness and height > flange_thickness,
then the 6-vertex angle outline. -/
def ShapeL.new (eps w h ft wt fl : ℝ) : Option ShapeL :=
  if wt < w ∧ ft < h then
    (Polygon.new eps
      [⟨0, 0, 0⟩, ⟨w, 0, 0⟩, ⟨w, ft, 0⟩, ⟨wt, ft, 0⟩, ⟨wt, h, 0⟩, ⟨0, h, 0⟩]).map
      (fun P => ⟨w, h, ft, wt, fl, P⟩)
  else none

/-- ShapeL::to_polygon. -/
def ShapeL.to_polygon (S : ShapeL) : Polygon := S.polygon

/-- ShapeL::linearized: ignores sides. -/
def ShapeL.linearized (S : ShapeL) (sides : ℕ) : Polygon := S.polygon

/-- shape.rs ShapeT. -/
structure ShapeT where
  width : ℝ
  height : ℝ
  flange_thickness : ℝ
  web_thickness : ℝ
  fillet : ℝ
  polygon : Polygon

/-- ShapeT::new: assert height > flange_thickness (the only validation), then
the 8-vertex tee outline. -/
def ShapeT.new (eps w h ft wt fl : ℝ) : Option ShapeT :=
  if ft < h then
    (Polygon.new eps
      [⟨-(w / 2), h / 2, 0⟩, ⟨w / 2, h / 2, 0⟩, ⟨w / 2, h / 2 - ft, 0⟩,
       ⟨wt / 2, h / 2 - ft, 0⟩, ⟨wt / 2, -(h / 2), 0⟩, ⟨-(wt / 2), -(h / 2), 0⟩,
       ⟨-(wt / 2), h / 2 - ft, 0⟩, ⟨-(w / 2), h / 2 - ft, 0⟩]).map
      (fun P => ⟨w, h, ft, wt, fl, P⟩)
  else none

/-- ShapeT::to_polygon. -/
def ShapeT.to_polygon (S : ShapeT) : Polygon := S.polygon

/-- ShapeT::linearized: ignores sides. -/
def ShapeT.linearized (S : ShapeT) (sides : ℕ) : Polygon := S.polygon

/-- The polygon cached by Rectangle::new(200, 100, 0, 0). -/
lemma rect200_new : Rectangle.new DEFAULT_EPSILON 200 100 0 0 = some
    ⟨200, 100, 0, 0,
      { vertices := [⟨-100, -50, 0⟩, ⟨100, -50, 0⟩, ⟨100, 50, 0⟩, ⟨-100, 50, 0⟩]
        normal := ⟨0, 0, 1⟩
        ex := ⟨1, 0, 0⟩
        ey := ⟨0, 1, 0⟩
        ez := ⟨0, 0, 1⟩
        centroid := ⟨(-100 + 100) / 2, (-50 + 50) / 2, 0⟩
        area := (100 - (-100)) * (50 - (-50))
        perimeter := 2 * ((100 - (-100)) + (50 - (-50))) }⟩ := by
  have hrect := rect_new_eval DEFAULT_EPSILON (-100) (-50) 100 50
    (by norm_num [DEFAULT_EPSILON]) (by norm_num [DEFAULT_EPSILON])
    (by norm_num [DEFAULT_EPSILON]) (by norm_num [DEFAULT_EPSILON])
    (by norm_num [DEFAULT_EPSILON])
  rw [Rectangle.new,
    if_pos (⟨by norm_num [DEFAULT_EPSILON], by norm_num [DEFAULT_EPSILON]⟩ :
      DEFAULT_EPSILON < (200:ℝ) ∧ DEFAULT_EPSILON < (100:ℝ))]
  rw [rectangle_polygon]
  rw [show [(⟨-(200 / 2), -(100 / 2), 0⟩ : Vector3d), ⟨200 / 2, -(100 / 2), 0⟩,
      ⟨200 / 2, 100 / 2, 0⟩, ⟨-(200 / 2), 100 / 2, 0⟩]
    = [(⟨-100, -50, 0⟩ : Vector3d), ⟨100, -50, 0⟩, ⟨100, 50, 0⟩, ⟨-100, 50, 0⟩] by
      norm_num [Vector3d.mk.injEq]]
  rw [hrect]
  rfl

/-- C6: Rectangle::new(200,100,0,0) yields area exactly 20000 and centroidal
second moments m00 = 50000000/3 and m11 = 200000000/3, which are within 0.01 of
16666666.67 and 66666666.67 respectively (the claimed w h^3/12 and h w^3/12). -/
theorem C6_rectangle :
    ∃ R : Rectangle, Rectangle.new DEFAULT_EPSILON 200 100 0 0 = some R ∧
      R.area = 20000 ∧
      (R.polygon.local_second_moment_of_area DEFAULT_EPSILON).1.1 = 50000000 / 3 ∧
      (R.polygon.local_second_moment_of_area DEFAULT_EPSILON).2.2 = 200000000 / 3 ∧
      |(R.polygon.local_second_moment_of_area DEFAULT_EPSILON).1.1 - 16666666.67| ≤ 0.01 ∧
      |(R.polygon.local_second_moment_of_area DEFAULT_EPSILON).2.2 - 66666666.67| ≤ 0.01 := by
  have hlsm : Polygon.local_second_moment_of_area DEFAULT_EPSILON
      { vertices := [⟨-100, -50, 0⟩, ⟨100, -50, 0⟩, ⟨100, 50, 0⟩, ⟨-100, 50, 0⟩]
        normal := ⟨0, 0, 1⟩
        ex := ⟨1, 0, 0⟩
        ey := ⟨0, 1, 0⟩
        ez := ⟨0, 0, 1⟩
        centroid := ⟨(-100 + 100) / 2, (-50 + 50) / 2, 0⟩
        area := (100 - (-100)) * (50 - (-50))
        perimeter := 2 * ((100 - (-100)) + (50 - (-50))) }
      = ((50000000 / 3, 0), (0, 200000000 / 3)) := by
    norm_num [Polygon.local_second_moment_of_area, Polygon.toFrame,
      Polygon.shoelaceArea2, Polygon.shoelaceCx, Polygon.shoelaceCy,
      ix0sumL, iy0sumL, ixy0sumL, cyclicPairs, Vector3d.sub, Vector3d.dot,
      DEFAULT_EPSILON, abs_of_pos, List.headI]
  refine ⟨_, rect200_new, ?_, ?_, ?_, ?_, ?_⟩
  · norm_num [Rectangle.area, Polygon.areaAbs, abs_of_pos]
  · simp only [hlsm]
  · simp only [hlsm]
  · simp only [hlsm]
    norm_num [abs_le]
  · simp only [hlsm]
    norm_num [abs_le]

/- ------------------------------------------------------------------ -/
/- Claim C2: shape constructor validation                              -/
/- ------------------------------------------------------------------ -/

/-- C2 counterexample: Disk::new(0, -1) passes the only validation
(radius > hole_radius) and constructs a disk of non-positive outer radius. -/
theorem C2_counterexample : ∃ D : Disk, Disk.new 0 (-1) = some D ∧ D.radius ≤ 0 := by
  refine ⟨⟨0, -1⟩, ?_, by norm_num⟩
  rw [Disk.new, if_pos (by norm_num : (-1:ℝ) < 0)]

/-- C2 amended: each constructor validates exactly its own assert — Rectangle
width > eps and height > eps, ShapeI/ShapeC only height > bottom + top
thickness, ShapeL width > web and height > flange, ShapeT only height > flange,
Disk only radius > hole_radius — returning nothing when it fails; Disk succeeds
whenever radius > hole_radius, so Disk::new(0,-1) constructs a disk with
non-positive radius, and Rectangle::new(200,100,0,0) succeeds. -/
theorem C2_amended :
    (∀ r hr : ℝ, hr < r → Disk.new r hr = some ⟨r, hr⟩) ∧
    (∀ r hr : ℝ, ¬ hr < r → Disk.new r hr = none) ∧
    (Disk.new 0 (-1) = some ⟨0, -1⟩) ∧
    (∀ eps w h a b : ℝ, ¬ (eps < w ∧ eps < h) → Rectangle.new eps w h a b = none) ∧
    (∀ eps bw tw h bt tt wt fl : ℝ, ¬ bt + tt < h →
      ShapeI.new eps bw tw h bt tt wt fl = none) ∧
    (∀ eps bw tw h bt tt wt fl : ℝ, ¬ bt + tt < h →
      ShapeC.new eps bw tw h bt tt wt fl = none) ∧
    (∀ eps w h ft wt fl : ℝ, ¬ (wt < w ∧ ft < h) → ShapeL.new eps w h ft wt fl = none) ∧
    (∀ eps w h ft wt fl : ℝ, ¬ ft < h → ShapeT.new eps w h ft wt fl = none) ∧
    (∃ R : Rectangle, Rectangle.new DEFAULT_EPSILON 200 100 0 0 = some R) := by
  refine ⟨?_, ?_, ?_, ?_, ?_, ?_, ?_, ?_, ⟨_, rect200_new⟩⟩
  · intro r hr h
    rw [Disk.new, if_pos h]
  · intro r hr h
    rw [Disk.new, if_neg h]
  · rw [Disk.new, if_pos (by norm_num : (-1:ℝ) < 0)]
  · intro eps w h a b hg
    rw [Rectangle.new, if_neg hg]
  · intro eps bw tw h bt tt wt fl hg
    rw [ShapeI.new, if_neg hg]
  · intro eps bw tw h bt tt wt fl hg
    rw [ShapeC.new, if_neg hg]
  · intro eps w h ft wt fl hg
    rw [ShapeL.new, if_neg hg]
  · intro eps w h ft wt fl hg
    rw [ShapeT.new, if_neg hg]

/-- Witness for C2: concrete guard checks for disks and a degenerate
rectangle. -/
theorem C2_witness :
    Disk.new 2 1 = some ⟨2, 1⟩ ∧ Disk.new 1 2 = none ∧
    Rectangle.new 0 (-1) 1 0 0 = none :=
  ⟨C2_amended.1 2 1 (by norm_num), C2_amended.2.1 1 2 (by norm_num),
    C2_amended.2.2.2.1 0 (-1) 1 0 0 (by norm_num)⟩

/- ------------------------------------------------------------------ -/
/- Claim C9: polygon-backed shapes ignore the sides argument           -/
/- ------------------------------------------------------------------ -/

/-- C9: for every polygon-backed shape value and any two side counts,
linearized returns the cached construction-time polygon unchanged, equal to
to_polygon. -/
theorem C9_sides_ignored (R : Rectangle) (SI : ShapeI) (SC : ShapeC)
    (SL : ShapeL) (ST : ShapeT) (n m : ℕ) :
    R.linearized n = R.to_polygon ∧ R.linearized n = R.linearized m ∧
    SI.linearized n = SI.to_polygon ∧ SI.linearized n = SI.linearized m ∧
    SC.linearized n = SC.to_polygon ∧ SC.linearized n = SC.linearized m ∧
    SL.linearized n = SL.to_polygon ∧ SL.linearized n = SL.linearized m ∧
    ST.linearized n = ST.to_polygon ∧ ST.linearized n = ST.linearized m :=
  ⟨rfl, rfl, rfl, rfl, rfl, rfl, rfl, rfl, rfl, rfl⟩

/- ------------------------------------------------------------------ -/
/- Claim C8: Disk::linearized vertex count                             -/
/- ------------------------------------------------------------------ -/

/-- The difference of two distinct vectors has positive norm. -/
lemma Vector3d.norm_pos_of_ne {u v : Vector3d} (h : u ≠ v) : 0 < (u.sub v).norm := by
  refine (Vector3d.lt_norm_iff le_rfl).mpr ?_
  obtain ⟨ux, uy, uz⟩ := u
  obtain ⟨vx, vy, vz⟩ := v
  simp only [Vector3d.sub, Vector3d.dot]
  have hne : ux ≠ vx ∨ uy ≠ vy ∨ uz ≠ vz := by
    by_contra hc
    push_neg at hc
    exact h (by rw [hc.1, hc.2.1, hc.2.2])
  rcases hne with hx | hy | hz
  · nlinarith [mul_self_pos.mpr (sub_ne_zero.mpr hx), sq_nonneg (uy - vy),
      sq_nonneg (uz - vz)]
  · nlinarith [mul_self_pos.mpr (sub_ne_zero.mpr hy), sq_nonneg (ux - vx),
      sq_nonneg (uz - vz)]
  · nlinarith [mul_self_pos.mpr (sub_ne_zero.mpr hz), sq_nonneg (ux - vx),
      sq_nonneg (uy - vy)]

/-- At tolerance zero, dedup_by keeps every element of a list whose consecutive
elements are distinct. -/
lemma dedupAux_zero (l : List Vector3d) : ∀ prev : Vector3d,
    List.Chain' (fun a b : Vector3d => a ≠ b) (prev :: l) → dedupAux 0 prev l = l := by
  induction l with
  | nil => intro prev _; rfl
  | cons a rest ih =>
      intro prev h
      rw [List.chain'_cons] at h
      rw [dedupAux, if_neg (not_le.mpr (Vector3d.norm_pos_of_ne (Ne.symm h.1)))]
      rw [ih a h.2]

/-- At tolerance zero, dedup is the identity on consecutive-distinct lists. -/
lemma dedup_zero (l : List Vector3d)
    (h : List.Chain' (fun a b : Vector3d => a ≠ b) l) : dedup 0 l = l := by
  cases l with
  | nil => rfl
  | cons a rest => rw [dedup, dedupAux_zero rest a h]

/-- The built polygon keeps one (projected) vertex per input vertex. -/
lemma build_vertices_length (eps : ℝ) (dd : List Vector3d) :
    (Polygon.build eps dd).vertices.length = dd.length := by
  simp only [Polygon.build]
  rw [List.length_map]

/-- Chain' of pairwise-distinct over a mapped range from pointwise
distinctness of consecutive images. -/
lemma chain'_ne_of_map (s : ℕ) (f : ℕ → Vector3d)
    (hf : ∀ m, m + 1 < s → f m ≠ f (m + 1)) :
    List.Chain' (fun a b : Vector3d => a ≠ b) ((List.range s).map f) := by
  rw [List.chain'_map]
  cases s with
  | zero => simp
  | succ k =>
      rw [List.chain'_range_succ]
      intro m hm
      exact hf m (by omega)

/-- Two points of a circle of positive radius at angles a and b with
0 < b - a < 2 pi cannot have equal cos and sin coordinates. -/
lemma ngon_step_ne (r : ℝ) (hr : 0 < r) (c : ℝ) (hc0 : 0 < c) (hc2 : c < 2 * π)
    (a b : ℝ) (hab : b - a = c)
    (hcosr : r * Real.cos a = r * Real.cos b)
    (hsinr : r * Real.sin a = r * Real.sin b) : False := by
  have h1 := mul_left_cancel₀ (ne_of_gt hr) hcosr
  have h2 := mul_left_cancel₀ (ne_of_gt hr) hsinr
  have hkey : Real.cos (b - a) = 1 := by
    rw [Real.cos_sub, ← h1, ← h2]
    nlinarith [Real.sin_sq_add_cos_sq a]
  rw [hab] at hkey
  have hczero := (Real.cos_eq_one_iff_of_lt_of_lt (by linarith) hc2).mp hkey
  linarith

/-- Polygon::new at tolerance zero on a list of at least three
consecutive-distinct vertices succeeds and keeps one projected vertex per
input vertex. -/
lemma polygon_new_zero_eval (l : List Vector3d) (hl : 3 ≤ l.length)
    (hchain : List.Chain' (fun a b : Vector3d => a ≠ b) l) :
    ∃ P : Polygon, Polygon.new 0 l = some P ∧ P.vertices.length = l.length := by
  have hded := dedup_zero l hchain
  rw [Polygon.new]
  rw [if_neg (by omega)]
  rw [if_neg (by rw [hded]; omega)]
  refine ⟨_, rfl, ?_⟩
  rw [build_vertices_length, hded]

/-- Polygon::new at tolerance zero on a mapped range with consecutive-distinct
images succeeds with one vertex per index. -/
lemma polygon_new_zero_map_eval (s : ℕ) (f : ℕ → Vector3d) (hs : 3 ≤ s)
    (hf : ∀ m, m + 1 < s → f m ≠ f (m + 1)) :
    ∃ P : Polygon, Polygon.new 0 ((List.range s).map f) = some P ∧
      P.vertices.length = s := by
  obtain ⟨P, hP, hPl⟩ := polygon_new_zero_eval ((List.range s).map f)
    (by rw [List.length_map, List.length_range]; exact hs)
    (chain'_ne_of_map s f hf)
  exact ⟨P, hP, by rw [hPl, List.length_map, List.length_range]⟩

/-- regular_ngon at tolerance zero succeeds for positive radius and at least
three sides and keeps exactly the requested number of vertices. -/
lemma regular_ngon_eval_len (r : ℝ) (hr : 0 < r) (s : ℕ) (hs : 3 ≤ s) :
    ∃ P : Polygon, regular_ngon 0 r s = some P ∧ P.vertices.length = s := by
  have hspos : (0:ℝ) < (s:ℝ) := by
    have : (0:ℕ) < s := by omega
    exact_mod_cast this
  have hstep_pos : 0 < 2 * π / (s:ℝ) := div_pos (by nlinarith [Real.pi_pos]) hspos
  have hstep_lt : 2 * π / (s:ℝ) < 2 * π := by
    rw [div_lt_iff₀ hspos]
    have hs3 : (3:ℝ) ≤ (s:ℝ) := by exact_mod_cast hs
    nlinarith [Real.pi_pos]
  rw [regular_ngon, if_pos ⟨hr, hs⟩]
  refine polygon_new_zero_map_eval s _ hs ?_
  intro m hm hc
  have hx := congrArg Vector3d.x hc
  have hy := congrArg Vector3d.y hc
  simp only at hx hy
  refine ngon_step_ne r hr (2 * π / (s:ℝ)) hstep_pos hstep_lt _ _ ?_ hx hy
  push_cast
  ring

/-- C8 counterexample to the original claim: the constructible Disk(0,-1) makes
linearized fail (regular_ngon asserts radius > 0), producing no polygon at
all. -/
theorem C8_counterexample :
    ∃ D : Disk, Disk.new 0 (-1) = some D ∧ Disk.linearized 0 D 10 = none := by
  refine ⟨⟨0, -1⟩, ?_, ?_⟩
  · rw [Disk.new, if_pos (by norm_num : (-1:ℝ) < 0)]
  · rw [Disk.linearized, regular_ngon, if_neg]
    norm_num

/-- C8 amended: for every disk of POSITIVE radius (not every disk: Disk(0,-1)
is constructible and panics) and every requested side count n, linearized
yields a polygon with exactly max(n, 256) vertices; proved with the settable
tolerance at zero, where no ring vertices are merged. -/
theorem C8_amended (D : Disk) (n : ℕ) (hr : 0 < D.radius) :
    ∃ P : Polygon, Disk.linearized 0 D n = some P ∧ P.vertices.length = max n 256 := by
  rw [Disk.linearized]
  exact regular_ngon_eval_len D.radius hr (max n 256) (by omega)

/-- Witness for C8: the unit disk at 10 requested sides gets 256 vertices. -/
theorem C8_witness :
    ∃ P : Polygon, Disk.linearized 0 ⟨1, 0⟩ 10 = some P ∧
      P.vertices.length = max 10 256 :=
  C8_amended ⟨1, 0⟩ 10 (by norm_num)

/- ------------------------------------------------------------------ -/
/- Claim C10: Polygon::intersection_with_line and the line parameter   -/
/- ------------------------------------------------------------------ -/

/-- polygon.rs point_on_segment_2d: p on segment ab in the x,y coordinates,
with eps slack on the cross (collinearity) and dot (range) tests. -/
def point_on_segment_2d (eps : ℝ) (p a b : Vector3d) : Prop :=
  |(p.sub a).x * (b.sub a).y - (p.sub a).y * (b.sub a).x| ≤ eps ∧
  -eps ≤ (p.sub a).x * (b.sub a).x + (p.sub a).y * (b.sub a).y ∧
  (p.sub a).x * (b.sub a).x + (p.sub a).y * (b.sub a).y
    ≤ (b.sub a).x * (b.sub a).x + (b.sub a).y * (b.sub a).y + eps

/-- One edge step of the +X ray cast of Polygon::contains: toggle the inside
flag when the edge straddles the ray height and the crossing lies right of the
point (the 1e-30 term is the code's division guard). -/
def rayCastStep (px py : ℝ) (inside : Bool) (ab : Vector3d × Vector3d) : Bool :=
  if ((ab.1.y > py ∧ ab.2.y ≤ py) ∨ (ab.2.y > py ∧ ab.1.y ≤ py))
      ∧ (ab.1.x + (py - ab.1.y) * (ab.2.x - ab.1.x) / (ab.2.y - ab.1.y + 1e-30) > px)
  then !inside else inside

/-- Polygon::contains: reject points off the plane (|local z| > eps), then ray
cast along +X through the centroid-frame local loop. -/
def Polygon.contains (eps : ℝ) (P : Polygon) (point : Vector3d) : Bool :=
  let pl := P.to_local point
  if |pl.z| > eps then false
  else (cyclicPairs (P.vertices.map P.to_local)).foldl (rayCastStep pl.x pl.y) false

/-- Polygon::border_contains: reject points off the plane, else test each
cyclic edge with point_on_segment_2d. -/
def Polygon.border_contains (eps : ℝ) (P : Polygon) (point : Vector3d) : Prop :=
  let pl := P.to_local point
  if |pl.z| > eps then False
  else ∃ ab ∈ cyclicPairs (P.vertices.map P.to_local),
    point_on_segment_2d eps pl ab.1 ab.2

/-- Polygon::intersection_with_line: intersect the INFINITE line through the
segment's endpoints with the polygon plane (reject only parallel lines); in
ray mode reject parameters below -eps and clamp small negatives to 0; keep the
hit only if contains or border_contains accepts it. -/
def Polygon.intersection_with_line (eps : ℝ) (P : Polygon) (L : Line3d)
    (treat_as_ray : Bool) : List Vector3d :=
  let s0 := L.start
  let dir := L.stop.sub L.start
  let n := P.normal
  let denom := n.dot dir
  if |denom| ≤ eps then []
  else
    let t := n.dot (P.centroid.sub s0) / denom
    if treat_as_ray = true ∧ t < -eps then []
    else
      let t2 := if treat_as_ray = true ∧ t < 0 then 0 else t
      let p := s0.add (dir.smul t2)
      if P.contains eps p = true ∨ P.border_contains eps p then [p] else []

/-- C10: on the unit square, the segment from (1/2,1/2,1) to (1/2,1/2,2) never
touches the polygon, yet non-ray intersection_with_line returns the plane hit
(1/2,1/2,0), whose line parameter is -1 (outside [0,1] and indeed outside the
segment entirely); ray mode rejects it. -/
theorem C10_infinite_line :
    ∃ P : Polygon,
      Polygon.new DEFAULT_EPSILON [⟨0, 0, 0⟩, ⟨1, 0, 0⟩, ⟨1, 1, 0⟩, ⟨0, 1, 0⟩] = some P ∧
      Polygon.intersection_with_line DEFAULT_EPSILON P
        ⟨⟨1/2, 1/2, 1⟩, ⟨1/2, 1/2, 2⟩⟩ false = [⟨1/2, 1/2, 0⟩] ∧
      Polygon.intersection_with_line DEFAULT_EPSILON P
        ⟨⟨1/2, 1/2, 1⟩, ⟨1/2, 1/2, 2⟩⟩ true = [] ∧
      (∀ u : ℝ, 0 ≤ u → u ≤ 1 →
        Line3d.point_at ⟨⟨1/2, 1/2, 1⟩, ⟨1/2, 1/2, 2⟩⟩ u ≠ ⟨1/2, 1/2, 0⟩) := by
  have hsq := rect_new_eval DEFAULT_EPSILON 0 0 1 1
    (by norm_num [DEFAULT_EPSILON]) (by norm_num [DEFAULT_EPSILON])
    (by norm_num [DEFAULT_EPSILON]) (by norm_num [DEFAULT_EPSILON])
    (by norm_num [DEFAULT_EPSILON])
  refine ⟨_, hsq, ?_, ?_, ?_⟩
  · norm_num [Polygon.intersection_with_line, Polygon.contains, Polygon.border_contains,
      rayCastStep, point_on_segment_2d, Polygon.to_local, Polygon.toFrame, cyclicPairs,
      Vector3d.sub, Vector3d.add, Vector3d.smul, Vector3d.dot, Vector3d.mk.injEq,
      DEFAULT_EPSILON]
  · norm_num [Polygon.intersection_with_line, Polygon.contains, Polygon.border_contains,
      rayCastStep, point_on_segment_2d, Polygon.to_local, Polygon.toFrame, cyclicPairs,
      Vector3d.sub, Vector3d.add, Vector3d.smul, Vector3d.dot, Vector3d.mk.injEq,
      DEFAULT_EPSILON]
  · intro u h0 h1 hc
    have hz := congrArg Vector3d.z hc
    simp only [Line3d.point_at, Vector3d.add, Vector3d.sub, Vector3d.smul] at hz
    norm_num at hz
    linarith

/-- Witness for C10: the segment midpoint (u = 1/2) is not the returned hit. -/
theorem C10_witness :
    ∃ P : Polygon,
      Polygon.new DEFAULT_EPSILON [⟨0, 0, 0⟩, ⟨1, 0, 0⟩, ⟨1, 1, 0⟩, ⟨0, 1, 0⟩] = some P ∧
      Line3d.point_at ⟨⟨1/2, 1/2, 1⟩, ⟨1/2, 1/2, 2⟩⟩ (1/2) ≠ ⟨1/2, 1/2, 0⟩ := by
  obtain ⟨P, h1, _, _, h4⟩ := C10_infinite_line
  exact ⟨P, h1, h4 (1/2) (by norm_num) (by norm_num)⟩
